import Mathlib

/-!
Shallow embedding of the job / bid / contract / milestone / review lifecycle of
the Pikxora backend (Express + Mongoose route handlers), together with proofs
about its behaviour.

The embedding models each Mongo document as a structure over `Nat` identifiers,
statuses as the `String` values the JavaScript code compares against, dates as
`Nat` timestamps, and the database as lists of documents inside a single state
record.  Each route handler becomes a function `St → ... → Resp × St` that
follows the source handler branch by branch (guards in source order, early
returns as early `Resp` results, Mongoose writes as list updates).
-/

namespace Pikxora

/-- HTTP-style response: status code plus optional error message, mirroring
`res.status(code).json({ error })` in the route handlers. -/
structure Resp where
  code : Nat
  error : Option String
  deriving DecidableEq, Repr

/-- Authenticated caller as produced by the `protect` middleware:
`req.user.id` and `req.user.roles`. -/
structure UserCtx where
  id : Nat
  roles : List String
  deriving DecidableEq, Repr

/-- Job document (`models/Job.js`), restricted to the fields the lifecycle
logic reads.  `job_type` and `assignment_mode` are optional because legacy
documents may lack them (the code compares them with `!==` / `===` against
string literals, which is `false` for `undefined`). -/
structure Job where
  id : Nat
  created_by : Nat
  job_type : Option String
  assignment_mode : Option String
  assigned_to : List Nat
  status : String
  bid_deadline : Option Nat
  final_delivery_date : Option Nat
  deliverables : List String
  deriving DecidableEq, Repr

/-- Bid document (`models/Bid.js`), restricted to the fields the lifecycle
logic reads. -/
structure Bid where
  id : Nat
  job_id : Nat
  bidder_id : Nat
  bidder_type : String
  amount_total : Int
  currency : String
  start_available_from : Option Nat
  notes : Option String
  status : String
  deriving DecidableEq, Repr

/-- Contract document (`models/Contract.js`).  `end_date` is a required field
of the schema, so a persisted contract always carries one. -/
structure Contract where
  id : Nat
  job_id : Nat
  client_id : Nat
  vendor_id : Nat
  total_amount : Int
  currency : String
  start_date : Nat
  end_date : Nat
  deliverables_status : String
  status : String
  deriving DecidableEq, Repr

/-- Milestone document (`models/Milestone.js`).  `due_date` and `amount` are
required by the schema. -/
structure Milestone where
  id : Nat
  contract_id : Nat
  title : String
  description : String
  due_date : Nat
  amount : Int
  deliverables : List String
  status : String
  completed_at : Option Nat
  review_notes : Option String
  deriving DecidableEq, Repr

/-- Deliverable document (`models/Deliverable.js`), restricted to the fields
the review flow reads. -/
structure Deliverable where
  id : Nat
  contract_id : Nat
  uploaded_by : Nat
  status : String
  review_notes : Option String
  reviewed_by : Option Nat
  reviewed_at : Option Nat
  deriving DecidableEq, Repr

/-- Review document (`models/Review.js`), restricted to the fields rating
aggregation reads. -/
structure Review where
  id : Nat
  target_user_id : Nat
  rating : Rat
  is_public : Bool
  deriving DecidableEq, Repr

/-- Profile document, restricted to the aggregated `rating` field written by
`updateProfileRating`; `none` models an absent / null rating. -/
structure Profile where
  user_id : Nat
  rating : Option Rat
  deriving DecidableEq, Repr

/-- Database state: one list per collection, plus counters supplying fresh
`_id` values for newly created documents. -/
structure St where
  jobs : List Job
  bids : List Bid
  contracts : List Contract
  milestones : List Milestone
  deliverables : List Deliverable
  reviews : List Review
  profiles : List Profile
  nextJobId : Nat
  nextBidId : Nat
  nextContractId : Nat
  nextMilestoneId : Nat
  deriving DecidableEq, Repr

/-- Empty database. -/
def initSt : St :=
  { jobs := [], bids := [], contracts := [], milestones := [], deliverables := []
    reviews := [], profiles := [], nextJobId := 0, nextBidId := 0
    nextContractId := 0, nextMilestoneId := 0 }

/-- JavaScript truthiness of an optional string body field (`if (notes)` is
false for `undefined` and for the empty string). -/
def strTruthy : Option String → Bool
  | some s => s ≠ ""
  | none => false

/-- Deadline check `new Date() > new Date(job.bid_deadline)` used by the bid
routes.  A missing deadline yields an invalid date, and any comparison with
`NaN` is `false`, so the guard never fires. -/
def deadlinePassed (now : Nat) : Option Nat → Bool
  | some d => d < now
  | none => false

/-- Status enum of `models/Job.js`. -/
def jobStatuses : List String :=
  ["draft", "open", "under_review", "awarded", "in_progress", "completed", "cancelled"]

/-- Valid target statuses accepted by `PUT /api/bids/:id/status` (part of the
bid status route, `routes/bids.js`). -/
def bidStatusValues : List String :=
  ["pending", "shortlisted", "accepted", "rejected"]

/-- Valid target statuses accepted by `PUT /api/contracts/:id/status`
(`routes/contracts.js`). -/
def contractStatusValues : List String :=
  ["active", "completed", "terminated", "disputed"]

/-- Valid target statuses accepted by the milestone update route
(`routes/contracts.js`). -/
def milestoneStatusValues : List String :=
  ["pending", "in_review", "approved", "paid"]

/-- Valid target statuses accepted by `PUT /api/deliverables/:id/review`
(`routes/deliverables.js`). -/
def deliverableStatusValues : List String :=
  ["submitted", "in_review", "approved", "changes_requested"]

/-- Transition table of `canTransition` in `routes/jobs.js` (lines 12-24):
`allowedTransitions[currentStatus]`. -/
def allowedTransitions : List (String × List String) :=
  [("draft", ["open", "cancelled"]),
   ("open", ["under_review", "cancelled"]),
   ("under_review", ["awarded", "open", "cancelled"]),
   ("awarded", ["in_progress", "cancelled"]),
   ("in_progress", ["completed", "cancelled"]),
   ("completed", []),
   ("cancelled", [])]

/-- Helper `canTransition(currentStatus, newStatus)` of `routes/jobs.js`:
`allowedTransitions[currentStatus]?.includes(newStatus) || false`. -/
def canTransition (currentStatus newStatus : String) : Bool :=
  match allowedTransitions.lookup currentStatus with
  | some nexts => nexts.contains newStatus
  | none => false

/-- Handler `POST /api/jobs` of the job_type-aware jobs router, restricted to
the modelled fields (the `package_per_year` and `payment_type` validations
concern fields outside the model and are omitted). -/
def createJob (s : St) (user : UserCtx) (job_type : Option String)
    (assignment_mode : Option String) (assigned_to : List Nat)
    (bid_deadline : Option Nat) (final_delivery_date : Option Nat)
    (deliverables : List String) : Resp × St :=
  if ¬ (user.roles.contains "studio" ∨ user.roles.contains "admin") then
    (⟨403, some "Only studios and admins can create jobs"⟩, s)
  else if job_type = some "job" then
    let job : Job :=
      { id := s.nextJobId, created_by := user.id, job_type := some "job"
        assignment_mode := some "open", assigned_to := [], status := "draft"
        bid_deadline := none, final_delivery_date := none
        deliverables := deliverables }
    (⟨201, none⟩, { s with jobs := job :: s.jobs, nextJobId := s.nextJobId + 1 })
  else if job_type = some "freelance" then
    if ¬ strTruthy assignment_mode then
      (⟨400, some "Assignment mode is required for freelance jobs"⟩, s)
    else if final_delivery_date = none then
      (⟨400, some "Final delivery date is required for freelance jobs"⟩, s)
    else if assignment_mode = some "direct" ∧ assigned_to = [] then
      (⟨400, some "At least one assigned_to user is required for direct assignment"⟩, s)
    else if assignment_mode = some "open" ∧ bid_deadline = none then
      (⟨400, some "Bid deadline is required for open bidding"⟩, s)
    else
      let job : Job :=
        { id := s.nextJobId, created_by := user.id, job_type := some "freelance"
          assignment_mode := assignment_mode
          assigned_to := if assignment_mode = some "direct" then assigned_to else []
          status := "draft", bid_deadline := bid_deadline
          final_delivery_date := final_delivery_date, deliverables := deliverables }
      (⟨201, none⟩, { s with jobs := job :: s.jobs, nextJobId := s.nextJobId + 1 })
  else
    -- job_type absent or unrecognized: neither validation branch runs and the
    -- document is stored with `job_type: job_type || 'job'`
    let job : Job :=
      { id := s.nextJobId, created_by := user.id
        job_type := some (match job_type with
          | some t => if t = "" then "job" else t
          | none => "job")
        assignment_mode := assignment_mode, assigned_to := assigned_to
        status := "draft", bid_deadline := bid_deadline
        final_delivery_date := final_delivery_date, deliverables := deliverables }
    (⟨201, none⟩, { s with jobs := job :: s.jobs, nextJobId := s.nextJobId + 1 })

/-- Handler `PUT /api/jobs/:id/publish` of the job_type-aware jobs router.
The request body is never read; only freelance (non-`job`) open-bidding jobs
require a bid deadline. -/
def publishJob (s : St) (user : UserCtx) (jobId : Nat) : Resp × St :=
  match s.jobs.find? (fun j => j.id == jobId && j.created_by == user.id) with
  | none => (⟨404, some "Job not found"⟩, s)
  | some job =>
    if job.status ≠ "draft" then
      (⟨400, some "Job is not in draft status"⟩, s)
    else if job.job_type ≠ some "job" ∧ job.bid_deadline = none ∧
        job.assignment_mode = some "open" then
      (⟨400, some "Bid deadline is required for open bidding freelance jobs"⟩, s)
    else
      (⟨200, none⟩,
       { s with jobs := s.jobs.map (fun j =>
           if j.id == jobId then { j with status := "open" } else j) })

/-- First registered handler `PUT /api/jobs/:id` (`routes/jobs.js` lines
302-362).  Express dispatches a request to the first matching handler, and
this handler always responds, so the duplicate registration further down the
file is unreachable.  The body is restricted to the `status` field, which the
handler copies into `updates` with no transition validation; `runValidators`
rejects values outside the schema status enum. -/
def updateJobPut1 (s : St) (user : UserCtx) (jobId : Nat)
    (status : Option String) : Resp × St :=
  match s.jobs.find? (fun j => j.id == jobId && j.created_by == user.id) with
  | none => (⟨404, some "Job not found"⟩, s)
  | some job =>
    if ["awarded", "in_progress", "completed"].contains job.status then
      (⟨400, some "Cannot edit job in current status"⟩, s)
    else
      match status with
      | some st =>
        if ¬ jobStatuses.contains st then
          (⟨400, some "Validation failed"⟩, s)
        else
          (⟨200, none⟩,
           { s with jobs := s.jobs.map (fun j =>
               if j.id == jobId then { j with status := st } else j) })
      | none => (⟨200, none⟩, s)

/-- Second registered handler `PUT /api/jobs/:id` (`routes/jobs.js` lines
400-548), the variant that calls `canTransition`; it is unreachable behind
`updateJobPut1`.  The body is restricted to the `status` field.  The
field-assignment loop writes `job[field] = value` for every body field,
including `status`, before the validation block, so the later comparison
`req.body.status !== job.status` reads the already-overwritten value and the
transition check can never fire.  Past the guards the handler saves the job
(schema validation failures land in the generic 500 catch) and then executes
`job = verifiedJob` on the `const job` binding, which throws a TypeError, so
the catch block answers 500 with the update already persisted. -/
def updateJobPut2 (s : St) (user : UserCtx) (jobId : Nat)
    (status : Option String) : Resp × St :=
  match s.jobs.find? (fun j => j.id == jobId) with
  | none => (⟨404, some "Job not found"⟩, s)
  | some job =>
    if job.created_by ≠ user.id then
      (⟨403, some "Not authorized to edit this job"⟩, s)
    else if ¬ ["draft", "open", "under_review", "awarded", "in_progress"].contains job.status then
      (⟨400, some "Cannot edit job in current status"⟩, s)
    else
      let job1 := match status with
        | some st => { job with status := st }
        | none => job
      if strTruthy status ∧ status.getD "" ≠ job1.status ∧
          ¬ canTransition job1.status (status.getD "") then
        (⟨400, some "Cannot change status"⟩, s)
      else if ¬ jobStatuses.contains job1.status then
        -- `job.save()` validates the schema enum; the generic catch answers 500
        (⟨500, some "Server error"⟩, s)
      else
        -- save succeeds and persists the update, then `job = verifiedJob`
        -- throws on the const binding: the response is the catch block's 500
        (⟨500, some "Server error"⟩,
         { s with jobs := s.jobs.map (fun j => if j.id == jobId then job1 else j) })

/-- Handler `DELETE /api/jobs/:id` (identical in both jobs router versions):
blocks deletion from `awarded` / `in_progress` / `completed`, then deletes the
bids of the job and the job itself. -/
def deleteJob (s : St) (user : UserCtx) (jobId : Nat) : Resp × St :=
  match s.jobs.find? (fun j => j.id == jobId && j.created_by == user.id) with
  | none => (⟨404, some "Job not found"⟩, s)
  | some job =>
    if ["awarded", "in_progress", "completed"].contains job.status then
      (⟨400, some "Cannot delete job in current status"⟩, s)
    else
      (⟨200, none⟩,
       { s with
         bids := s.bids.filter (fun b => !(b.job_id == jobId)),
         jobs := s.jobs.filter (fun j => !(j.id == jobId)) })

/-- Handler `POST /api/bids` (`routes/bids.js`): role check, job open for
bidding, deadline not passed, no duplicate bid, then a `pending` bid is
stored. -/
def submitBid (s : St) (user : UserCtx) (job_id : Nat) (amount_total : Int)
    (currency : Option String) (start_available_from : Option Nat)
    (notes : Option String) (now : Nat) : Resp × St :=
  if ¬ (user.roles.contains "artist" ∨ user.roles.contains "studio") then
    (⟨403, some "Only artists and studios can submit bids"⟩, s)
  else
    match s.jobs.find? (fun j => j.id == job_id) with
    | none => (⟨404, some "Job not found"⟩, s)
    | some job =>
      if job.assignment_mode ≠ some "open" ∨ job.status ≠ "open" then
        (⟨400, some "Job is not open for bidding"⟩, s)
      else if deadlinePassed now job.bid_deadline then
        (⟨400, some "Bidding deadline has passed"⟩, s)
      else if (s.bids.find? (fun b => b.job_id == job_id && b.bidder_id == user.id)).isSome then
        (⟨400, some "You have already submitted a bid for this job"⟩, s)
      else
        let bid : Bid :=
          { id := s.nextBidId, job_id := job_id, bidder_id := user.id
            bidder_type := if user.roles.contains "studio" then "studio" else "artist"
            amount_total := amount_total, currency := currency.getD "INR"
            start_available_from := start_available_from, notes := notes
            status := "pending" }
        (⟨201, none⟩, { s with bids := bid :: s.bids, nextBidId := s.nextBidId + 1 })

/-- Handler `PUT /api/bids/:id/status` (`routes/bids.js` lines 172-253): the
accept / reject protocol.  Accepting creates a Contract and a default
Milestone, sets the Job to `awarded`, rejects all sibling bids and finally
saves the target bid with the requested status.  A missing
`final_delivery_date` makes `contract.save()` fail schema validation
(`end_date` is required), answered 500 by the catch block with nothing
written. -/
def updateBidStatus (s : St) (user : UserCtx) (bidId : Nat) (status : String)
    (notes : Option String) (now : Nat) : Resp × St :=
  if ¬ bidStatusValues.contains status then
    (⟨400, some "Invalid status"⟩, s)
  else
    match s.bids.find? (fun b => b.id == bidId) with
    | none => (⟨404, some "Bid not found"⟩, s)
    | some bid =>
      match s.jobs.find? (fun j => j.id == bid.job_id) with
      | none => (⟨500, some "Server error"⟩, s)
      | some job =>
        if ¬ user.roles.contains "admin" ∧ job.created_by ≠ user.id then
          (⟨403, some "Access denied"⟩, s)
        else if bid.status = "accepted" ∧ status ≠ "accepted" then
          (⟨400, some "Cannot change status of accepted bid"⟩, s)
        else if status = "accepted" then
          if (s.bids.find? (fun b => b.job_id == bid.job_id && b.status == "accepted")).isSome then
            (⟨400, some "Another bid has already been accepted for this job"⟩, s)
          else
            match job.final_delivery_date with
            | none => (⟨500, some "Server error"⟩, s)
            | some fdd =>
              let contract : Contract :=
                { id := s.nextContractId, job_id := job.id
                  client_id := job.created_by, vendor_id := bid.bidder_id
                  total_amount := bid.amount_total, currency := bid.currency
                  start_date := bid.start_available_from.getD now
                  end_date := fdd, deliverables_status := "not_started"
                  status := "active" }
              let milestone : Milestone :=
                { id := s.nextMilestoneId, contract_id := contract.id
                  title := "Project Delivery"
                  description := "Complete delivery of all project deliverables"
                  due_date := fdd, amount := bid.amount_total
                  deliverables := job.deliverables, status := "pending"
                  completed_at := none, review_notes := none }
              let jobs1 := s.jobs.map (fun j =>
                if j.id == job.id then { j with status := "awarded" } else j)
              let bids1 := s.bids.map (fun b =>
                if b.job_id == bid.job_id && !(b.id == bid.id) then
                  { b with status := "rejected" }
                else b)
              let bids2 := bids1.map (fun b =>
                if b.id == bid.id then
                  { b with
                    status := status,
                    notes := if strTruthy notes then notes else b.notes }
                else b)
              (⟨200, none⟩,
               { s with
                 jobs := jobs1, bids := bids2,
                 contracts := contract :: s.contracts,
                 milestones := milestone :: s.milestones,
                 nextContractId := s.nextContractId + 1,
                 nextMilestoneId := s.nextMilestoneId + 1 })
        else
          let bids1 := s.bids.map (fun b =>
            if b.id == bid.id then
              { b with
                status := status,
                notes := if strTruthy notes then notes else b.notes }
            else b)
          (⟨200, none⟩, { s with bids := bids1 })

/-- Handler `PUT /api/bids/:id` (`routes/bids.js` lines 258-305): bidder-only
edit of a `pending` bid before the deadline; body restricted to the modelled
fields. -/
def updateBid (s : St) (user : UserCtx) (bidId : Nat) (amount_total : Option Int)
    (currency : Option String) (start_available_from : Option Nat)
    (notes : Option String) (now : Nat) : Resp × St :=
  match s.bids.find? (fun b => b.id == bidId && b.bidder_id == user.id) with
  | none => (⟨404, some "Bid not found"⟩, s)
  | some bid =>
    if bid.status ≠ "pending" then
      (⟨400, some "Cannot edit bid in current status"⟩, s)
    else
      match s.jobs.find? (fun j => j.id == bid.job_id) with
      | none => (⟨500, some "Server error"⟩, s)
      | some job =>
        if deadlinePassed now job.bid_deadline then
          (⟨400, some "Bidding deadline has passed"⟩, s)
        else
          let bids1 := s.bids.map (fun b =>
            if b.id == bidId then
              { b with
                amount_total := amount_total.getD b.amount_total,
                currency := currency.getD b.currency,
                start_available_from := (match start_available_from with
                  | some v => some v
                  | none => b.start_available_from),
                notes := (match notes with
                  | some v => some v
                  | none => b.notes) }
            else b)
          (⟨200, none⟩, { s with bids := bids1 })

/-- Handler `DELETE /api/bids/:id` (`routes/bids.js` lines 310-335): bidder
withdraws a `pending` bid before the deadline. -/
def withdrawBid (s : St) (user : UserCtx) (bidId : Nat) (now : Nat) : Resp × St :=
  match s.bids.find? (fun b => b.id == bidId && b.bidder_id == user.id) with
  | none => (⟨404, some "Bid not found"⟩, s)
  | some bid =>
    if bid.status ≠ "pending" then
      (⟨400, some "Cannot withdraw bid in current status"⟩, s)
    else
      match s.jobs.find? (fun j => j.id == bid.job_id) with
      | none => (⟨500, some "Server error"⟩, s)
      | some job =>
        if deadlinePassed now job.bid_deadline then
          (⟨400, some "Bidding deadline has passed"⟩, s)
        else
          (⟨200, none⟩, { s with bids := s.bids.filter (fun b => !(b.id == bidId)) })

/-- Handler `PUT /api/contracts/:id/status` (`routes/contracts.js` lines
121-170): either party may write a status; `completed` and `terminated`
contracts reject a write of a different value; setting `completed` also sets
the parent job to `completed`. -/
def updateContractStatus (s : St) (user : UserCtx) (contractId : Nat)
    (status : String) : Resp × St :=
  if ¬ contractStatusValues.contains status then
    (⟨400, some "Invalid status"⟩, s)
  else
    match s.contracts.find? (fun c => c.id == contractId) with
    | none => (⟨404, some "Contract not found"⟩, s)
    | some contract =>
      if contract.client_id ≠ user.id ∧ contract.vendor_id ≠ user.id then
        (⟨403, some "Access denied"⟩, s)
      else if contract.status = "completed" ∧ status ≠ "completed" then
        (⟨400, some "Cannot change status of completed contract"⟩, s)
      else if contract.status = "terminated" ∧ status ≠ "terminated" then
        (⟨400, some "Cannot change status of terminated contract"⟩, s)
      else
        let contracts1 := s.contracts.map (fun c =>
          if c.id == contractId then { c with status := status } else c)
        let jobs1 :=
          if status = "completed" then
            s.jobs.map (fun j =>
              if j.id == contract.job_id then { j with status := "completed" } else j)
          else s.jobs
        (⟨200, none⟩, { s with contracts := contracts1, jobs := jobs1 })

/-- Handler `PUT /api/contracts/:contractId/milestones/:milestoneId`
(`routes/contracts.js` lines 229-284): either party may set any status of the
milestone enum with no ordering constraint; `approved` stamps
`completed_at`. -/
def updateMilestone (s : St) (user : UserCtx) (contractId milestoneId : Nat)
    (status : Option String) (review_notes : Option String) (now : Nat) : Resp × St :=
  match s.contracts.find? (fun c => c.id == contractId) with
  | none => (⟨404, some "Contract not found"⟩, s)
  | some contract =>
    if contract.client_id ≠ user.id ∧ contract.vendor_id ≠ user.id then
      (⟨403, some "Access denied"⟩, s)
    else
      match s.milestones.find? (fun m => m.id == milestoneId && m.contract_id == contractId) with
      | none => (⟨404, some "Milestone not found"⟩, s)
      | some milestone =>
        if strTruthy status ∧ ¬ milestoneStatusValues.contains (status.getD "") then
          (⟨400, some "Invalid status"⟩, s)
        else
          let m1 :=
            if strTruthy status then
              { milestone with
                status := status.getD "",
                completed_at :=
                  if status.getD "" = "approved" then some now
                  else milestone.completed_at }
            else milestone
          let m2 := match review_notes with
            | some rn => { m1 with review_notes := some rn }
            | none => m1
          (⟨200, none⟩,
           { s with milestones := s.milestones.map (fun m =>
               if m.id == milestoneId && m.contract_id == contractId then m2 else m) })

/-- Handler `PUT /api/deliverables/:id/review` (`routes/deliverables.js` lines
178-231): client-only review, then recomputation of the parent contract field
`deliverables_status` over all deliverables of the contract. -/
def reviewDeliverable (s : St) (user : UserCtx) (deliverableId : Nat)
    (status : String) (review_notes : Option String) (now : Nat) : Resp × St :=
  if ¬ deliverableStatusValues.contains status then
    (⟨400, some "Invalid status"⟩, s)
  else
    match s.deliverables.find? (fun d => d.id == deliverableId) with
    | none => (⟨404, some "Deliverable not found"⟩, s)
    | some d =>
      match s.contracts.find? (fun c => c.id == d.contract_id) with
      | none => (⟨500, some "Server error"⟩, s)
      | some contract =>
        if contract.client_id ≠ user.id then
          (⟨403, some "Access denied"⟩, s)
        else
          let d1 :=
            { d with
              status := status,
              review_notes := (match review_notes with
                | some rn => some rn
                | none => d.review_notes),
              reviewed_by :=
                (if status = "approved" ∨ status = "changes_requested" then some user.id
                 else d.reviewed_by),
              reviewed_at :=
                (if status = "approved" ∨ status = "changes_requested" then some now
                 else d.reviewed_at) }
          let deliverables1 := s.deliverables.map (fun x =>
            if x.id == deliverableId then d1 else x)
          let allDeliverables := deliverables1.filter (fun x => x.contract_id == d.contract_id)
          let approvedCount := (allDeliverables.filter (fun x => x.status == "approved")).length
          let contracts1 :=
            if approvedCount = allDeliverables.length then
              s.contracts.map (fun c =>
                if c.id == d.contract_id then { c with deliverables_status := "approved" } else c)
            else if allDeliverables.any (fun x => x.status == "changes_requested") then
              s.contracts.map (fun c =>
                if c.id == d.contract_id then { c with deliverables_status := "changes_requested" } else c)
            else s.contracts
          (⟨200, none⟩, { s with deliverables := deliverables1, contracts := contracts1 })

/-- JavaScript `Math.round` on a rational input: round half toward positive
infinity. -/
def jsRound (q : Rat) : Int := (q + 1/2).floor

/-- The executable `Rat.floor` agrees with the floor of the order structure. -/
theorem jsRound_eq_floor (q : Rat) : jsRound q = ⌊q + 1/2⌋ := by
  rw [jsRound, Rat.floor_def', Rat.floor_def]

/-- Rounding to the nearest half used by `updateProfileRating`:
`Math.round(averageRating * 2) / 2`. -/
def roundToHalf (q : Rat) : Rat := (jsRound (q * 2) : Rat) / 2

/-- Helper `updateProfileRating(userId)` of the reviews router
(`routes/projects.js` lines 551-582): aggregate the public reviews of the
target into the profile `rating` field, clearing it to null when none
remain. -/
def updateProfileRating (s : St) (userId : Nat) : St :=
  let reviews := s.reviews.filter (fun r => r.target_user_id == userId && r.is_public)
  if reviews.length = 0 then
    { s with profiles := s.profiles.map (fun p =>
        if p.user_id == userId then { p with rating := none } else p) }
  else
    let averageRating := ((reviews.map Review.rating).sum) / (reviews.length : Rat)
    let roundedRating := roundToHalf averageRating
    { s with profiles := s.profiles.map (fun p =>
        if p.user_id == userId then { p with rating := some roundedRating } else p) }

/-- One request to any of the modelled (dispatched) mutating endpoints. -/
inductive Op where
  | createJob (user : UserCtx) (job_type : Option String)
      (assignment_mode : Option String) (assigned_to : List Nat)
      (bid_deadline : Option Nat) (final_delivery_date : Option Nat)
      (deliverables : List String)
  | publishJob (user : UserCtx) (jobId : Nat)
  | updateJobPut1 (user : UserCtx) (jobId : Nat) (status : Option String)
  | deleteJob (user : UserCtx) (jobId : Nat)
  | submitBid (user : UserCtx) (job_id : Nat) (amount_total : Int)
      (currency : Option String) (start_available_from : Option Nat)
      (notes : Option String) (now : Nat)
  | updateBidStatus (user : UserCtx) (bidId : Nat) (status : String)
      (notes : Option String) (now : Nat)
  | updateBid (user : UserCtx) (bidId : Nat) (amount_total : Option Int)
      (currency : Option String) (start_available_from : Option Nat)
      (notes : Option String) (now : Nat)
  | withdrawBid (user : UserCtx) (bidId : Nat) (now : Nat)
  | updateContractStatus (user : UserCtx) (contractId : Nat) (status : String)
  | updateMilestone (user : UserCtx) (contractId : Nat) (milestoneId : Nat)
      (status : Option String) (review_notes : Option String) (now : Nat)
  | reviewDeliverable (user : UserCtx) (deliverableId : Nat) (status : String)
      (review_notes : Option String) (now : Nat)

/-- State reached by one request, its response discarded. -/
def applyOp (s : St) : Op → St
  | .createJob u jt am ato bd fdd dl => (createJob s u jt am ato bd fdd dl).2
  | .publishJob u j => (publishJob s u j).2
  | .updateJobPut1 u j st => (updateJobPut1 s u j st).2
  | .deleteJob u j => (deleteJob s u j).2
  | .submitBid u j a c saf n now => (submitBid s u j a c saf n now).2
  | .updateBidStatus u b st n now => (updateBidStatus s u b st n now).2
  | .updateBid u b a c saf n now => (updateBid s u b a c saf n now).2
  | .withdrawBid u b now => (withdrawBid s u b now).2
  | .updateContractStatus u c st => (updateContractStatus s u c st).2
  | .updateMilestone u c m st rn now => (updateMilestone s u c m st rn now).2
  | .reviewDeliverable u d st rn now => (reviewDeliverable s u d st rn now).2

/-- State after a sequence of requests. -/
def runOps (s : St) (ops : List Op) : St := ops.foldl applyOp s

/-! ## General list lemmas used by the handler proofs -/

/-- Mapping a function that preserves a predicate commutes with `find?`. -/
theorem find?_map_pres {α : Type} (f : α → α) (p : α → Bool)
    (hf : ∀ a, p (f a) = p a) (l : List α) :
    (l.map f).find? p = (l.find? p).map f := by
  rw [List.find?_map]
  have hpf : p ∘ f = p := funext hf
  rw [hpf]

/-- In a list whose projections are pairwise distinct, at most one element
carries any given projection value. -/
theorem countP_proj_le_one {α : Type} (f : α → Nat) (l : List α)
    (h : (l.map f).Nodup) (x : Nat) :
    l.countP (fun a => f a == x) ≤ 1 := by
  have h1 := List.nodup_iff_count_le_one.mp h x
  rw [List.count, List.countP_map] at h1
  simpa [Function.comp] using h1

/-! ## C4: terminal contract statuses -/

/-- Completed contract fixture. -/
def c4Contract : Contract :=
  { id := 1, job_id := 1, client_id := 10, vendor_id := 20, total_amount := 1000
    currency := "INR", start_date := 0, end_date := 100
    deliverables_status := "not_started", status := "completed" }

/-- State holding a single completed contract. -/
def c4St : St := { initSt with contracts := [c4Contract] }

/-- C4, counterexample: the claim says a terminal contract admits no status
write at all, including writing the same value; but on a `completed` contract
a client request writing `completed` again succeeds with 200. -/
theorem c4_counterexample_same_value_write_succeeds :
    (updateContractStatus c4St ⟨10, ["studio"]⟩ 1 "completed").1.code = 200 ∧
    c4Contract.status = "completed" := by
  constructor <;> rfl

/-- Replacing the status of the contracts matching an id commutes with
looking that id up. -/
theorem find?_setContractStatus (l : List Contract) (cid : Nat) (st : String) :
    (l.map (fun c => if c.id == cid then { c with status := st } else c)).find?
        (fun c => c.id == cid) =
      (l.find? (fun c => c.id == cid)).map
        (fun c => if c.id == cid then { c with status := st } else c) :=
  find?_map_pres _ _ (fun c => by by_cases hid : c.id == cid <;> simp [hid]) l

/-- C4 (amended): for a contract in a terminal status (`completed` or
`terminated`), a status write of a different value fails with 400 and leaves
the state unchanged; a write of the same (terminal) value succeeds with 200
but still leaves the contract unchanged. -/
theorem c4_terminal_contract_status_writes
    (s : St) (user : UserCtx) (contractId : Nat) (status : String)
    (contract : Contract) (r : Resp) (s' : St)
    (hc : s.contracts.find? (fun c => c.id == contractId) = some contract)
    (hterm : contract.status = "completed" ∨ contract.status = "terminated")
    (hmem : contract.client_id = user.id ∨ contract.vendor_id = user.id)
    (hval : contractStatusValues.contains status = true)
    (h : updateContractStatus s user contractId status = (r, s')) :
    (status ≠ contract.status → r.code = 400 ∧ s' = s) ∧
    (status = contract.status → r.code = 200 ∧
      s'.contracts.find? (fun c => c.id == contractId) = some contract) := by
  have hmem' : ¬ (contract.client_id ≠ user.id ∧ contract.vendor_id ≠ user.id) := by
    tauto
  simp only [updateContractStatus, hc] at h
  rw [if_neg (fun hn => hn hval)] at h
  rw [if_neg hmem'] at h
  constructor
  · intro hne
    rcases hterm with hcs | hcs
    · rw [if_pos ⟨hcs, fun hst => hne (hst.trans hcs.symm)⟩] at h
      injection h with hr hs
      exact ⟨by rw [← hr], hs.symm⟩
    · have hg1 : ¬ (contract.status = "completed" ∧ status ≠ "completed") := by
        rintro ⟨h1, h2⟩
        rw [hcs] at h1
        exact absurd h1 (by decide)
      rw [if_neg hg1] at h
      rw [if_pos ⟨hcs, fun hst => hne (hst.trans hcs.symm)⟩] at h
      injection h with hr hs
      exact ⟨by rw [← hr], hs.symm⟩
  · intro heq
    have hnot1 : ¬ (contract.status = "completed" ∧ status ≠ "completed") := by
      rintro ⟨h1, h2⟩; exact h2 (heq.trans h1)
    have hnot2 : ¬ (contract.status = "terminated" ∧ status ≠ "terminated") := by
      rintro ⟨h1, h2⟩; exact h2 (heq.trans h1)
    rw [if_neg hnot1, if_neg hnot2] at h
    injection h with hr hs
    refine ⟨by rw [← hr], ?_⟩
    rw [← hs]
    dsimp only
    rw [find?_setContractStatus, hc, Option.map_some']
    have hid : (contract.id == contractId) = true := by
      have hp := List.find?_some hc
      simpa using hp
    rw [if_pos hid, heq]

/-- C4 witness: the amended theorem applied to the fixture, in both the
rejected (different value) and accepted (same value) directions. -/
theorem c4_witness :
    ((updateContractStatus c4St ⟨10, ["studio"]⟩ 1 "active").1.code = 400 ∧
     (updateContractStatus c4St ⟨10, ["studio"]⟩ 1 "active").2 = c4St) ∧
    (updateContractStatus c4St ⟨10, ["studio"]⟩ 1 "completed").1.code = 200 := by
  constructor
  · exact (c4_terminal_contract_status_writes c4St ⟨10, ["studio"]⟩ 1 "active" c4Contract
      (updateContractStatus c4St ⟨10, ["studio"]⟩ 1 "active").1
      (updateContractStatus c4St ⟨10, ["studio"]⟩ 1 "active").2
      (by rfl) (Or.inl rfl) (Or.inl rfl) (by rfl) rfl).1 (by decide)
  · exact ((c4_terminal_contract_status_writes c4St ⟨10, ["studio"]⟩ 1 "completed" c4Contract
      (updateContractStatus c4St ⟨10, ["studio"]⟩ 1 "completed").1
      (updateContractStatus c4St ⟨10, ["studio"]⟩ 1 "completed").2
      (by rfl) (Or.inl rfl) (Or.inl rfl) (by rfl) rfl).2 rfl).1

/-! ## C10: milestone status updates -/

/-- Replacing exactly the elements matching a predicate by a fixed element
that still matches commutes with `find?`. -/
theorem find?_replace {α : Type} (p : α → Bool) (x : α) (hx : p x = true) (l : List α) :
    (l.map (fun a => if p a then x else a)).find? p =
      (l.find? p).map (fun a => if p a then x else a) :=
  find?_map_pres _ _ (fun a => by by_cases hpa : p a <;> simp [hpa, hx]) l

/-- C10: a milestone status request by the client or the vendor, carrying any
value of the milestone enum, succeeds no matter what the current status is;
the milestone ends at the requested status, `approved` stamps `completed_at`
with the current time, and `review_notes` is overwritten when present in the
body. -/
theorem c10_milestone_updates_unrestricted
    (s : St) (user : UserCtx) (contractId milestoneId : Nat)
    (st : String) (review_notes : Option String) (now : Nat)
    (contract : Contract) (milestone : Milestone) (r : Resp) (s' : St)
    (hc : s.contracts.find? (fun c => c.id == contractId) = some contract)
    (hmem : contract.client_id = user.id ∨ contract.vendor_id = user.id)
    (hm : s.milestones.find? (fun m => m.id == milestoneId && m.contract_id == contractId)
      = some milestone)
    (hval : milestoneStatusValues.contains st = true)
    (hne : st ≠ "")
    (h : updateMilestone s user contractId milestoneId (some st) review_notes now = (r, s')) :
    r.code = 200 ∧
    s'.milestones.find? (fun m => m.id == milestoneId && m.contract_id == contractId) =
      some { milestone with
        status := st,
        completed_at := if st = "approved" then some now else milestone.completed_at,
        review_notes := (match review_notes with
          | some rn => some rn
          | none => milestone.review_notes) } := by
  have hmem' : ¬ (contract.client_id ≠ user.id ∧ contract.vendor_id ≠ user.id) := by
    tauto
  have hpm : (fun m => m.id == milestoneId && m.contract_id == contractId) milestone = true := by
    have hp := List.find?_some hm
    simpa using hp
  have htr : strTruthy (some st) = true := by simp [strTruthy, hne]
  cases review_notes with
  | none =>
    simp only [updateMilestone, hc, hm, Option.getD_some] at h
    rw [if_neg hmem'] at h
    rw [if_neg (fun hcon => hcon.2 hval)] at h
    rw [if_pos htr] at h
    injection h with hr hs
    subst hs
    refine ⟨by rw [← hr], ?_⟩
    dsimp only
    rw [find?_replace _ _ (by simpa using hpm), hm, Option.map_some']
    rw [if_pos hpm]
  | some rn =>
    simp only [updateMilestone, hc, hm, Option.getD_some] at h
    rw [if_neg hmem'] at h
    rw [if_neg (fun hcon => hcon.2 hval)] at h
    rw [if_pos htr] at h
    injection h with hr hs
    subst hs
    refine ⟨by rw [← hr], ?_⟩
    dsimp only
    rw [find?_replace _ _ (by simpa using hpm), hm, Option.map_some']
    rw [if_pos hpm]

/-- Contract fixture for the C10 witness. -/
def c10Contract : Contract :=
  { id := 1, job_id := 1, client_id := 10, vendor_id := 20, total_amount := 5000
    currency := "INR", start_date := 0, end_date := 100
    deliverables_status := "not_started", status := "active" }

/-- Milestone fixture for the C10 witness: already `paid`. -/
def c10Milestone : Milestone :=
  { id := 5, contract_id := 1, title := "Project Delivery"
    description := "Complete delivery of all project deliverables"
    due_date := 100, amount := 5000, deliverables := [], status := "paid"
    completed_at := none, review_notes := none }

/-- State for the C10 witness. -/
def c10St : St := { initSt with contracts := [c10Contract], milestones := [c10Milestone] }

/-- C10 witness: the vendor moves a `paid` milestone to `approved`, which
succeeds and stamps `completed_at`. -/
theorem c10_witness :
    (updateMilestone c10St ⟨20, ["artist"]⟩ 1 5 (some "approved") none 7).1.code = 200 ∧
    (updateMilestone c10St ⟨20, ["artist"]⟩ 1 5 (some "approved") none 7).2.milestones.find?
        (fun m => m.id == 5 && m.contract_id == 1) =
      some { c10Milestone with status := "approved", completed_at := some 7 } := by
  have h := c10_milestone_updates_unrestricted c10St ⟨20, ["artist"]⟩ 1 5 "approved" none 7
    c10Contract c10Milestone
    (updateMilestone c10St ⟨20, ["artist"]⟩ 1 5 (some "approved") none 7).1
    (updateMilestone c10St ⟨20, ["artist"]⟩ 1 5 (some "approved") none 7).2
    (by rfl) (Or.inr rfl) (by rfl) (by rfl) (by decide) rfl
  exact ⟨h.1, h.2.trans (by decide)⟩

/-! ## C7: publish requires a bid deadline for open freelance jobs -/

/-- Setting the status of the jobs matching an id commutes with an owner
lookup. -/
theorem find?_setJobStatus (l : List Job) (jid uid : Nat) (st : String) :
    (l.map (fun j => if j.id == jid then { j with status := st } else j)).find?
        (fun j => j.id == jid && j.created_by == uid) =
      (l.find? (fun j => j.id == jid && j.created_by == uid)).map
        (fun j => if j.id == jid then { j with status := st } else j) :=
  find?_map_pres _ _ (fun j => by by_cases hid : j.id == jid <;> simp [hid]) l

/-- C7: publishing a draft job fails iff it is an open-bidding freelance job
with no bid deadline; with a deadline present it succeeds, and a studio job
(`job_type = 'job'`) publishes without any deadline.  The publish route never
reads the request body. -/
theorem c7_publish_bid_deadline_requirement
    (s : St) (user : UserCtx) (jobId : Nat) (job : Job) (r : Resp) (s' : St)
    (hj : s.jobs.find? (fun j => j.id == jobId && j.created_by == user.id) = some job)
    (hdraft : job.status = "draft")
    (h : publishJob s user jobId = (r, s')) :
    (job.job_type = some "freelance" → job.assignment_mode = some "open" →
      job.bid_deadline = none → r.code = 400 ∧ s' = s) ∧
    (job.job_type = some "freelance" → job.assignment_mode = some "open" →
      job.bid_deadline ≠ none → r.code = 200 ∧
        s'.jobs.find? (fun j => j.id == jobId && j.created_by == user.id) =
          some { job with status := "open" }) ∧
    (job.job_type = some "job" → r.code = 200 ∧
      s'.jobs.find? (fun j => j.id == jobId && j.created_by == user.id) =
        some { job with status := "open" }) := by
  have hp' : job.id = jobId ∧ job.created_by = user.id := by
    have hp := List.find?_some hj
    simpa using hp
  simp only [publishJob, hj] at h
  rw [if_neg (fun hns => hns hdraft)] at h
  refine ⟨?_, ?_, ?_⟩
  · intro hft ham hbd
    rw [if_pos ⟨by rw [hft]; decide, hbd, ham⟩] at h
    injection h with hr hs
    exact ⟨by rw [← hr], hs.symm⟩
  · intro hft ham hbd
    have hneg : ¬ (job.job_type ≠ some "job" ∧ job.bid_deadline = none ∧
        job.assignment_mode = some "open") := fun hcon => hbd hcon.2.1
    rw [if_neg hneg] at h
    injection h with hr hs
    subst hs
    refine ⟨by rw [← hr], ?_⟩
    dsimp only
    rw [find?_setJobStatus, hj, Option.map_some']
    rw [if_pos (by simp [hp'.1] : (job.id == jobId) = true)]
  · intro hjt
    have hneg : ¬ (job.job_type ≠ some "job" ∧ job.bid_deadline = none ∧
        job.assignment_mode = some "open") := fun hcon => hcon.1 hjt
    rw [if_neg hneg] at h
    injection h with hr hs
    subst hs
    refine ⟨by rw [← hr], ?_⟩
    dsimp only
    rw [find?_setJobStatus, hj, Option.map_some']
    rw [if_pos (by simp [hp'.1] : (job.id == jobId) = true)]

/-- Draft freelance open-bidding job without a deadline. -/
def c7JobNoDeadline : Job :=
  { id := 1, created_by := 10, job_type := some "freelance"
    assignment_mode := some "open", assigned_to := [], status := "draft"
    bid_deadline := none, final_delivery_date := some 200, deliverables := [] }

/-- The same job with a deadline set. -/
def c7JobWithDeadline : Job := { c7JobNoDeadline with bid_deadline := some 100 }

/-- Draft studio-salaried job (no deadline, none needed). -/
def c7StudioJob : Job :=
  { id := 2, created_by := 10, job_type := some "job"
    assignment_mode := some "open", assigned_to := [], status := "draft"
    bid_deadline := none, final_delivery_date := none, deliverables := [] }

/-- C7 witness: the three directions of the theorem at concrete states. -/
theorem c7_witness :
    (publishJob { initSt with jobs := [c7JobNoDeadline] } ⟨10, ["studio"]⟩ 1).1.code = 400 ∧
    (publishJob { initSt with jobs := [c7JobWithDeadline] } ⟨10, ["studio"]⟩ 1).1.code = 200 ∧
    (publishJob { initSt with jobs := [c7StudioJob] } ⟨10, ["studio"]⟩ 2).1.code = 200 := by
  refine ⟨?_, ?_, ?_⟩
  · exact ((c7_publish_bid_deadline_requirement { initSt with jobs := [c7JobNoDeadline] }
      ⟨10, ["studio"]⟩ 1 c7JobNoDeadline
      (publishJob { initSt with jobs := [c7JobNoDeadline] } ⟨10, ["studio"]⟩ 1).1
      (publishJob { initSt with jobs := [c7JobNoDeadline] } ⟨10, ["studio"]⟩ 1).2
      (by rfl) rfl rfl).1 rfl rfl rfl).1
  · exact ((c7_publish_bid_deadline_requirement { initSt with jobs := [c7JobWithDeadline] }
      ⟨10, ["studio"]⟩ 1 c7JobWithDeadline
      (publishJob { initSt with jobs := [c7JobWithDeadline] } ⟨10, ["studio"]⟩ 1).1
      (publishJob { initSt with jobs := [c7JobWithDeadline] } ⟨10, ["studio"]⟩ 1).2
      (by rfl) rfl rfl).2.1 rfl rfl (by decide)).1
  · exact ((c7_publish_bid_deadline_requirement { initSt with jobs := [c7StudioJob] }
      ⟨10, ["studio"]⟩ 2 c7StudioJob
      (publishJob { initSt with jobs := [c7StudioJob] } ⟨10, ["studio"]⟩ 2).1
      (publishJob { initSt with jobs := [c7StudioJob] } ⟨10, ["studio"]⟩ 2).2
      (by rfl) rfl rfl).2.2 rfl).1

/-! ## C9: job deletion -/

/-- C9 (amended): deletion by the creator is rejected with 400 exactly when
the status is `awarded`, `in_progress` or `completed` (so it also succeeds
from `under_review` and `cancelled`, not only `draft` / `open`), and a
successful deletion removes the job and every bid on it. -/
theorem c9_delete_job
    (s : St) (user : UserCtx) (jobId : Nat) (job : Job) (r : Resp) (s' : St)
    (hj : s.jobs.find? (fun j => j.id == jobId && j.created_by == user.id) = some job)
    (h : deleteJob s user jobId = (r, s')) :
    (["awarded", "in_progress", "completed"].contains job.status = true →
      r.code = 400 ∧ s' = s) ∧
    (["awarded", "in_progress", "completed"].contains job.status = false →
      r.code = 200 ∧ (∀ b ∈ s'.bids, b.job_id ≠ jobId) ∧
      s'.jobs.find? (fun j => j.id == jobId) = none ∧
      s'.bids = s.bids.filter (fun b => !(b.job_id == jobId))) := by
  simp only [deleteJob, hj] at h
  constructor
  · intro hblocked
    rw [if_pos hblocked] at h
    injection h with hr hs
    exact ⟨by rw [← hr], hs.symm⟩
  · intro hallowed
    rw [if_neg (fun hcon => absurd (hallowed.symm.trans hcon) (by decide))] at h
    injection h with hr hs
    subst hs
    refine ⟨by rw [← hr], ?_, ?_, rfl⟩
    · intro b hb
      dsimp only at hb
      rw [List.mem_filter] at hb
      simpa using hb.2
    · dsimp only
      rw [List.find?_eq_none]
      intro j hjmem
      rw [List.mem_filter] at hjmem
      simpa using hjmem.2

/-- Cancelled job owned by user 10, with one bid on it. -/
def c9Job : Job :=
  { id := 1, created_by := 10, job_type := some "freelance"
    assignment_mode := some "open", assigned_to := [], status := "under_review"
    bid_deadline := some 100, final_delivery_date := some 200, deliverables := [] }

/-- Bid fixture on the C9 job. -/
def c9Bid : Bid :=
  { id := 3, job_id := 1, bidder_id := 30, bidder_type := "artist"
    amount_total := 500, currency := "INR", start_available_from := none
    notes := none, status := "pending" }

/-- State for C9. -/
def c9St : St := { initSt with jobs := [c9Job], bids := [c9Bid] }

/-- Awarded variant of the C9 job, for the rejected direction. -/
def c9StAwarded : St := { initSt with jobs := [{ c9Job with status := "awarded" }] }

/-- C9 counterexample: the claim restricts deletion to `draft` / `open`, but
deleting a job whose status is `under_review` succeeds with 200. -/
theorem c9_counterexample_delete_under_review :
    c9Job.status = "under_review" ∧ (deleteJob c9St ⟨10, ["studio"]⟩ 1).1.code = 200 := by
  constructor <;> rfl

/-- C9 witness: amended theorem applied in both directions, including the bid
cascade. -/
theorem c9_witness :
    ((deleteJob c9St ⟨10, ["studio"]⟩ 1).1.code = 200 ∧
     (deleteJob c9St ⟨10, ["studio"]⟩ 1).2.bids = [] ∧
     (deleteJob c9St ⟨10, ["studio"]⟩ 1).2.jobs.find? (fun j => j.id == 1) = none) ∧
    (deleteJob c9StAwarded ⟨10, ["studio"]⟩ 1).1.code = 400 := by
  constructor
  · have h := (c9_delete_job c9St ⟨10, ["studio"]⟩ 1 c9Job
      (deleteJob c9St ⟨10, ["studio"]⟩ 1).1 (deleteJob c9St ⟨10, ["studio"]⟩ 1).2
      (by rfl) rfl).2 (by decide)
    exact ⟨h.1, by rw [h.2.2.2]; rfl, h.2.2.1⟩
  · exact ((c9_delete_job c9StAwarded ⟨10, ["studio"]⟩ 1 { c9Job with status := "awarded" }
      (deleteJob c9StAwarded ⟨10, ["studio"]⟩ 1).1 (deleteJob c9StAwarded ⟨10, ["studio"]⟩ 1).2
      (by rfl) rfl).1 (by decide)).1

/-! ## C8: bid deadline boundary -/

/-- C8 (amended): creation, edit and withdrawal of a bid all apply the same
deadline rule `new Date() > new Date(bid_deadline)`: the request is rejected
with 400 exactly when the current time is strictly after the deadline, and a
request at exactly the deadline instant is allowed (inclusive boundary, not
the exclusive one the claim states). -/
theorem c8_bid_deadline_boundary :
    (∀ s user job_id amt cur saf notes now job d r s',
      (user.roles.contains "artist" ∨ user.roles.contains "studio") →
      s.jobs.find? (fun j => j.id == job_id) = some job →
      job.assignment_mode = some "open" → job.status = "open" →
      job.bid_deadline = some d →
      (s.bids.find? (fun b => b.job_id == job_id && b.bidder_id == user.id)).isSome = false →
      submitBid s user job_id amt cur saf notes now = (r, s') →
      (d < now → r.code = 400 ∧ r.error = some "Bidding deadline has passed" ∧ s' = s) ∧
      (now ≤ d → r.code = 201)) ∧
    (∀ s user bidId amt cur saf notes now bid job d r s',
      s.bids.find? (fun b => b.id == bidId && b.bidder_id == user.id) = some bid →
      bid.status = "pending" →
      s.jobs.find? (fun j => j.id == bid.job_id) = some job →
      job.bid_deadline = some d →
      updateBid s user bidId amt cur saf notes now = (r, s') →
      (d < now → r.code = 400 ∧ r.error = some "Bidding deadline has passed" ∧ s' = s) ∧
      (now ≤ d → r.code = 200)) ∧
    (∀ s user bidId now bid job d r s',
      s.bids.find? (fun b => b.id == bidId && b.bidder_id == user.id) = some bid →
      bid.status = "pending" →
      s.jobs.find? (fun j => j.id == bid.job_id) = some job →
      job.bid_deadline = some d →
      withdrawBid s user bidId now = (r, s') →
      (d < now → r.code = 400 ∧ r.error = some "Bidding deadline has passed" ∧ s' = s) ∧
      (now ≤ d → r.code = 200)) := by
  refine ⟨?_, ?_, ?_⟩
  · intro s user job_id amt cur saf notes now job d r s' hroles hj ham hst hd hdup h
    simp only [submitBid, hj, hd, deadlinePassed] at h
    rw [if_neg (fun hcon => hcon hroles)] at h
    rw [if_neg (fun hcon => hcon.elim (fun hn => hn ham) (fun hn => hn hst))] at h
    constructor
    · intro hlt
      rw [if_pos (decide_eq_true hlt)] at h
      injection h with hr hs
      exact ⟨by rw [← hr], by rw [← hr], hs.symm⟩
    · intro hle
      rw [if_neg (fun hcon => absurd (of_decide_eq_true hcon) (not_lt.mpr hle))] at h
      rw [if_neg (fun hcon => absurd (hdup.symm.trans hcon) (by decide))] at h
      injection h with hr hs
      rw [← hr]
  · intro s user bidId amt cur saf notes now bid job d r s' hb hpend hj hd h
    simp only [updateBid, hb, hj, hd, deadlinePassed] at h
    rw [if_neg (fun hcon => hcon hpend)] at h
    constructor
    · intro hlt
      rw [if_pos (decide_eq_true hlt)] at h
      injection h with hr hs
      exact ⟨by rw [← hr], by rw [← hr], hs.symm⟩
    · intro hle
      rw [if_neg (fun hcon => absurd (of_decide_eq_true hcon) (not_lt.mpr hle))] at h
      injection h with hr hs
      rw [← hr]
  · intro s user bidId now bid job d r s' hb hpend hj hd h
    simp only [withdrawBid, hb, hj, hd, deadlinePassed] at h
    rw [if_neg (fun hcon => hcon hpend)] at h
    constructor
    · intro hlt
      rw [if_pos (decide_eq_true hlt)] at h
      injection h with hr hs
      exact ⟨by rw [← hr], by rw [← hr], hs.symm⟩
    · intro hle
      rw [if_neg (fun hcon => absurd (of_decide_eq_true hcon) (not_lt.mpr hle))] at h
      injection h with hr hs
      rw [← hr]

/-- Open freelance job with `bid_deadline = 100`. -/
def c8Job : Job :=
  { id := 1, created_by := 10, job_type := some "freelance"
    assignment_mode := some "open", assigned_to := [], status := "open"
    bid_deadline := some 100, final_delivery_date := some 200, deliverables := [] }

/-- State with the open job and no bids yet. -/
def c8St : St := { initSt with jobs := [c8Job], nextBidId := 4 }

/-- Pending bid by user 30 on the C8 job. -/
def c8Bid : Bid :=
  { id := 3, job_id := 1, bidder_id := 30, bidder_type := "artist"
    amount_total := 500, currency := "INR", start_available_from := none
    notes := none, status := "pending" }

/-- State with the open job and the pending bid. -/
def c8StWithBid : St := { initSt with jobs := [c8Job], bids := [c8Bid], nextBidId := 4 }

/-- C8 counterexample: the claim says a request at exactly the deadline
instant is disallowed, but a bid submitted at `now = bid_deadline = 100`
succeeds with 201. -/
theorem c8_counterexample_exact_deadline_allowed :
    c8Job.bid_deadline = some 100 ∧
    (submitBid c8St ⟨30, ["artist"]⟩ 1 500 none none none 100).1.code = 201 := by
  constructor <;> rfl

/-- C8 witness: the amended theorem at concrete inputs — submission rejected
one tick after the deadline and accepted exactly at it, edit accepted at the
deadline, withdrawal rejected after it. -/
theorem c8_witness :
    (submitBid c8St ⟨30, ["artist"]⟩ 1 500 none none none 101).1.code = 400 ∧
    (submitBid c8St ⟨30, ["artist"]⟩ 1 500 none none none 100).1.code = 201 ∧
    (updateBid c8StWithBid ⟨30, ["artist"]⟩ 3 (some 600) none none none 100).1.code = 200 ∧
    (withdrawBid c8StWithBid ⟨30, ["artist"]⟩ 3 101).1.code = 400 := by
  refine ⟨?_, ?_, ?_, ?_⟩
  · exact ((c8_bid_deadline_boundary.1 c8St ⟨30, ["artist"]⟩ 1 500 none none none 101 c8Job 100
      (submitBid c8St ⟨30, ["artist"]⟩ 1 500 none none none 101).1
      (submitBid c8St ⟨30, ["artist"]⟩ 1 500 none none none 101).2
      (Or.inl (by rfl)) (by rfl) rfl rfl rfl (by rfl) rfl).1 (by decide)).1
  · exact (c8_bid_deadline_boundary.1 c8St ⟨30, ["artist"]⟩ 1 500 none none none 100 c8Job 100
      (submitBid c8St ⟨30, ["artist"]⟩ 1 500 none none none 100).1
      (submitBid c8St ⟨30, ["artist"]⟩ 1 500 none none none 100).2
      (Or.inl (by rfl)) (by rfl) rfl rfl rfl (by rfl) rfl).2 (by decide)
  · exact (c8_bid_deadline_boundary.2.1 c8StWithBid ⟨30, ["artist"]⟩ 3 (some 600) none none none 100
      c8Bid c8Job 100
      (updateBid c8StWithBid ⟨30, ["artist"]⟩ 3 (some 600) none none none 100).1
      (updateBid c8StWithBid ⟨30, ["artist"]⟩ 3 (some 600) none none none 100).2
      (by rfl) rfl (by rfl) rfl rfl).2 (by decide)
  · exact ((c8_bid_deadline_boundary.2.2 c8StWithBid ⟨30, ["artist"]⟩ 3 101 c8Bid c8Job 100
      (withdrawBid c8StWithBid ⟨30, ["artist"]⟩ 3 101).1
      (withdrawBid c8StWithBid ⟨30, ["artist"]⟩ 3 101).2
      (by rfl) rfl (by rfl) rfl rfl).1 (by decide)).1

/-! ## C2: the job status transition table is not enforced -/

/-- Open freelance job owned by user 10. -/
def c2Job : Job :=
  { id := 1, created_by := 10, job_type := some "freelance"
    assignment_mode := some "open", assigned_to := [], status := "open"
    bid_deadline := some 100, final_delivery_date := some 200, deliverables := [] }

/-- State holding the C2 job. -/
def c2St : St := { initSt with jobs := [c2Job] }

/-- C2: `canTransition` rejects `open → completed`, yet the dispatched
`PUT /jobs/:id` handler (the first registration) applies the requested status
with no transition check and answers 200, leaving the job `completed`; the
shadowed duplicate handler that does call `canTransition` first overwrites
`job.status` with the request value and only then compares
`req.body.status !== job.status`, so its transition check never fires either:
it persists the disallowed status as well and answers 500 from its catch
block (the `job = verifiedJob` reassignment of a const throws after the
save), never the claimed invalid-transition 400. -/
theorem c2_transition_table_not_enforced :
    canTransition "open" "completed" = false ∧
    (updateJobPut1 c2St ⟨10, ["studio"]⟩ 1 (some "completed")).1.code = 200 ∧
    ((updateJobPut1 c2St ⟨10, ["studio"]⟩ 1 (some "completed")).2.jobs.map Job.status)
      = ["completed"] ∧
    (updateJobPut2 c2St ⟨10, ["studio"]⟩ 1 (some "completed")).1.code = 500 ∧
    ((updateJobPut2 c2St ⟨10, ["studio"]⟩ 1 (some "completed")).2.jobs.map Job.status)
      = ["completed"] := by
  refine ⟨rfl, rfl, rfl, rfl, rfl⟩

/-! ## C6: rating recomputation -/

/-- Setting the rating of the profiles matching a user id commutes with the
lookup. -/
theorem find?_setProfileRating (l : List Profile) (uid : Nat) (rt : Option Rat) :
    (l.map (fun p => if p.user_id == uid then { p with rating := rt } else p)).find?
        (fun p => p.user_id == uid) =
      (l.find? (fun p => p.user_id == uid)).map
        (fun p => if p.user_id == uid then { p with rating := rt } else p) :=
  find?_map_pres _ _ (fun p => by by_cases hu : p.user_id == uid <;> simp [hu]) l

/-- C6: rating recomputation takes the arithmetic mean of the target user's
public reviews, rounds it to the nearest half (half rounded up, matching
`Math.round(x * 2) / 2`), and stores it; with no public reviews left it clears
the field to `none`.  The rounded value is always a multiple of one half and
within 1/4 of the mean, and `[5, 4, 4]` aggregates to `4.5`. -/
theorem c6_rating_recomputation :
    (∀ s userId p, s.profiles.find? (fun q => q.user_id == userId) = some p →
      (let pubs := s.reviews.filter (fun rv => rv.target_user_id == userId && rv.is_public)
       (updateProfileRating s userId).profiles.find? (fun q => q.user_id == userId) =
         some { p with rating :=
           (if pubs.length = 0 then none
            else some (roundToHalf (((pubs.map Review.rating).sum) / (pubs.length : Rat)))) })) ∧
    (∀ q : Rat, ∃ n : Int, roundToHalf q = (n : Rat) / 2) ∧
    (∀ q : Rat, |roundToHalf q - q| ≤ 1/4) ∧
    roundToHalf ((5 + 4 + 4 : Rat) / 3) = 9/2 := by
  refine ⟨?_, fun q => ⟨jsRound (q * 2), rfl⟩, ?_, by norm_num [roundToHalf, jsRound_eq_floor]⟩
  · intro s userId p hp
    have hid : (p.user_id == userId) = true := by
      have hq := List.find?_some hp
      simpa using hq
    dsimp only
    by_cases hlen :
        (s.reviews.filter (fun rv => rv.target_user_id == userId && rv.is_public)).length = 0
    · simp only [updateProfileRating, if_pos hlen]
      rw [find?_setProfileRating, hp, Option.map_some']
      rw [if_pos hid]
    · simp only [updateProfileRating, if_neg hlen]
      rw [find?_setProfileRating, hp, Option.map_some']
      rw [if_pos hid]
  · intro q
    rw [abs_le]
    have h1 := Int.floor_le (q * 2 + 1/2)
    have h2 := Int.lt_floor_add_one (q * 2 + 1/2)
    unfold roundToHalf
    rw [jsRound_eq_floor]
    constructor
    · linarith
    · linarith

/-- Three public 5/4/4 reviews of user 7 plus their profile. -/
def c6St : St :=
  { initSt with
    reviews := [⟨1, 7, 5, true⟩, ⟨2, 7, 4, true⟩, ⟨3, 7, 4, true⟩],
    profiles := [⟨7, none⟩] }

/-- C6 witness: recomputation over the `[5, 4, 4]` fixture stores `4.5`, and
clearing all public reviews resets the field to `none`. -/
theorem c6_witness :
    ((updateProfileRating c6St 7).profiles.find? (fun q => q.user_id == 7) =
      some ⟨7, some (9/2 : Rat)⟩) ∧
    ((updateProfileRating { c6St with reviews := [] } 7).profiles.find?
        (fun q => q.user_id == 7) = some ⟨7, none⟩) := by
  constructor
  · have h := c6_rating_recomputation.1 c6St 7 (⟨7, none⟩ : Profile) (by rfl)
    dsimp only at h
    refine h.trans ?_
    norm_num [c6St, initSt, List.filter, roundToHalf, jsRound_eq_floor]
  · have h := c6_rating_recomputation.1 { c6St with reviews := [] } 7 (⟨7, none⟩ : Profile) (by rfl)
    dsimp only at h
    refine h.trans ?_
    norm_num [List.filter]

/-! ## C5: contract deliverables_status recomputation -/

/-- Setting `deliverables_status` of the contracts matching an id commutes
with the lookup. -/
theorem find?_setContractDS (l : List Contract) (cid : Nat) (ds : String) :
    (l.map (fun c => if c.id == cid then { c with deliverables_status := ds } else c)).find?
        (fun c => c.id == cid) =
      (l.find? (fun c => c.id == cid)).map
        (fun c => if c.id == cid then { c with deliverables_status := ds } else c) :=
  find?_map_pres _ _ (fun c => by by_cases hid : c.id == cid <;> simp [hid]) l

/-- A filter keeps every element exactly when its length is unchanged. -/
theorem filter_length_eq_iff_all {α : Type} (p : α → Bool) (l : List α) :
    ((l.filter p).length = l.length) ↔ l.all p = true := by
  rw [← List.countP_eq_length_filter, List.countP_eq_length, List.all_eq_true]

/-- Lookup of the contract after the `deliverables_status` recomputation step
of the review route, for an arbitrary post-review deliverable list. -/
theorem recompute_contracts_find? (contracts : List Contract) (delivs1 : List Deliverable)
    (cid : Nat) (contract : Contract)
    (hc : contracts.find? (fun c => c.id == cid) = some contract) :
    (let allD := delivs1.filter (fun x => x.contract_id == cid)
     let contracts1 :=
       if ((allD.filter (fun x => x.status == "approved")).length = allD.length) then
         contracts.map (fun c =>
           if c.id == cid then { c with deliverables_status := "approved" } else c)
       else if allD.any (fun x => x.status == "changes_requested") then
         contracts.map (fun c =>
           if c.id == cid then { c with deliverables_status := "changes_requested" } else c)
       else contracts
     contracts1.find? (fun c => c.id == cid) =
       some { contract with deliverables_status :=
         (if allD.all (fun x => x.status == "approved") then "approved"
          else if allD.any (fun x => x.status == "changes_requested") then "changes_requested"
          else contract.deliverables_status) }) := by
  have hid : (contract.id == cid) = true := by
    have hq := List.find?_some hc
    simpa using hq
  dsimp only
  by_cases hA : (((delivs1.filter (fun x => x.contract_id == cid)).filter
      (fun x => x.status == "approved")).length =
      (delivs1.filter (fun x => x.contract_id == cid)).length)
  · rw [if_pos hA, find?_setContractDS, hc, Option.map_some', if_pos hid,
      if_pos ((filter_length_eq_iff_all _ _).mp hA)]
  · rw [if_neg hA]
    rw [if_neg (fun hall => hA ((filter_length_eq_iff_all _ _).mpr hall))]
    by_cases hB : (delivs1.filter (fun x => x.contract_id == cid)).any
        (fun x => x.status == "changes_requested") = true
    · rw [if_pos hB, find?_setContractDS, hc, Option.map_some', if_pos hid, if_pos hB]
    · rw [if_neg hB, if_neg hB, hc]

/-- C5: after a successful deliverable review the parent contract's
`deliverables_status` is recomputed over all deliverables of the contract in
the post state: all approved gives `approved`, otherwise any
`changes_requested` gives `changes_requested`, otherwise the field is left
unchanged. -/
theorem c5_deliverables_status_recompute
    (s : St) (user : UserCtx) (deliverableId : Nat) (status : String)
    (review_notes : Option String) (now : Nat) (d : Deliverable) (contract : Contract)
    (r : Resp) (s' : St)
    (hd : s.deliverables.find? (fun x => x.id == deliverableId) = some d)
    (hc : s.contracts.find? (fun c => c.id == d.contract_id) = some contract)
    (hcli : contract.client_id = user.id)
    (hval : deliverableStatusValues.contains status = true)
    (h : reviewDeliverable s user deliverableId status review_notes now = (r, s')) :
    r.code = 200 ∧
    (let post := s'.deliverables.filter (fun x => x.contract_id == d.contract_id)
     s'.contracts.find? (fun c => c.id == d.contract_id) =
       some { contract with deliverables_status :=
         (if post.all (fun x => x.status == "approved") then "approved"
          else if post.any (fun x => x.status == "changes_requested") then "changes_requested"
          else contract.deliverables_status) }) := by
  simp only [reviewDeliverable, hd, hc] at h
  rw [if_neg (fun hn => hn hval)] at h
  rw [if_neg (fun hn => hn hcli)] at h
  injection h with hr hs
  subst hs
  exact ⟨by rw [← hr], recompute_contracts_find? s.contracts _ d.contract_id contract hc⟩

/-- Contract fixture for C5. -/
def c5Contract : Contract :=
  { id := 1, job_id := 1, client_id := 10, vendor_id := 20, total_amount := 5000
    currency := "INR", start_date := 0, end_date := 100
    deliverables_status := "not_started", status := "active" }

/-- Three deliverables on the contract: two approved, one still submitted. -/
def c5St : St :=
  { initSt with
    contracts := [c5Contract],
    deliverables :=
      [⟨1, 1, 20, "approved", none, some 10, some 1⟩,
       ⟨2, 1, 20, "approved", none, some 10, some 2⟩,
       ⟨3, 1, 20, "submitted", none, none, none⟩] }

/-- State after the client requests changes on the third deliverable. -/
def c5StAfterChanges : St :=
  (reviewDeliverable c5St ⟨10, ["studio"]⟩ 3 "changes_requested" none 5).2

/-- C5 witness: the scenario of the claim — with deliverables approved,
approved, changes_requested the contract reads `changes_requested`; approving
the third afterwards flips it to `approved`. -/
theorem c5_witness :
    ((c5StAfterChanges.contracts.find? (fun c => c.id == 1)).map
      Contract.deliverables_status = some "changes_requested") ∧
    ((((reviewDeliverable c5StAfterChanges ⟨10, ["studio"]⟩ 3 "approved" none 6).2).contracts.find?
        (fun c => c.id == 1)).map Contract.deliverables_status = some "approved") := by
  constructor
  · have h := (c5_deliverables_status_recompute c5St ⟨10, ["studio"]⟩ 3 "changes_requested"
      none 5 ⟨3, 1, 20, "submitted", none, none, none⟩ c5Contract
      (reviewDeliverable c5St ⟨10, ["studio"]⟩ 3 "changes_requested" none 5).1
      (reviewDeliverable c5St ⟨10, ["studio"]⟩ 3 "changes_requested" none 5).2
      (by rfl) (by rfl) rfl (by rfl) rfl).2
    dsimp only at h
    rw [show c5StAfterChanges.contracts =
        (reviewDeliverable c5St ⟨10, ["studio"]⟩ 3 "changes_requested" none 5).2.contracts from rfl]
    rw [h]
    decide
  · have h := (c5_deliverables_status_recompute c5StAfterChanges ⟨10, ["studio"]⟩ 3 "approved"
      none 6 ⟨3, 1, 20, "changes_requested", none, some 10, some 5⟩ { c5Contract with
        deliverables_status := "changes_requested" }
      (reviewDeliverable c5StAfterChanges ⟨10, ["studio"]⟩ 3 "approved" none 6).1
      (reviewDeliverable c5StAfterChanges ⟨10, ["studio"]⟩ 3 "approved" none 6).2
      (by decide) (by decide) rfl (by rfl) rfl).2
    dsimp only at h
    rw [h]
    decide

/-! ## C1: postconditions of a successful bid acceptance -/

/-- C1: whenever a bid-status request with `status = accepted` succeeds
(HTTP 200), the post state contains a fresh `active` contract for the job
(client = job creator, vendor = bidder, total = bid amount), exactly one new
`pending` milestone on that contract carrying the bid amount and the job's
final delivery date, the job is `awarded`, every sibling bid of the job is
`rejected`, and the target bid is `accepted`. -/
theorem c1_accept_bid_postconditions
    (s : St) (user : UserCtx) (bidId : Nat) (notes : Option String) (now : Nat)
    (bid : Bid) (job : Job) (r : Resp) (s' : St)
    (hb : s.bids.find? (fun b => b.id == bidId) = some bid)
    (hj : s.jobs.find? (fun j => j.id == bid.job_id) = some job)
    (hfresh : ∀ m ∈ s.milestones, m.contract_id ≠ s.nextContractId)
    (h : updateBidStatus s user bidId "accepted" notes now = (r, s'))
    (hr200 : r.code = 200) :
    ∃ fdd, job.final_delivery_date = some fdd ∧
    ∃ contract,
      s'.contracts = contract :: s.contracts ∧
      contract.id = s.nextContractId ∧
      contract.status = "active" ∧
      contract.job_id = job.id ∧
      contract.client_id = job.created_by ∧
      contract.vendor_id = bid.bidder_id ∧
      contract.total_amount = bid.amount_total ∧
      (s'.milestones.filter (fun m => m.contract_id == contract.id) =
        [{ id := s.nextMilestoneId,
           contract_id := contract.id,
           title := "Project Delivery",
           description := "Complete delivery of all project deliverables",
           due_date := fdd,
           amount := bid.amount_total,
           deliverables := job.deliverables,
           status := "pending",
           completed_at := none,
           review_notes := none }]) ∧
      ((s'.jobs.find? (fun j => j.id == bid.job_id)).map Job.status = some "awarded") ∧
      (∀ b ∈ s'.bids, b.job_id = bid.job_id → b.id ≠ bid.id → b.status = "rejected") ∧
      (s'.bids.find? (fun b => b.id == bidId) =
        some { bid with
               status := "accepted",
               notes := if strTruthy notes then notes else bid.notes }) := by
  simp only [updateBidStatus, hb, hj] at h
  rw [if_neg (fun hn => hn (by decide))] at h
  by_cases hperm : (¬ user.roles.contains "admin" = true ∧ job.created_by ≠ user.id)
  · rw [if_pos hperm] at h
    injection h with hr hs
    rw [← hr] at hr200
    exact absurd hr200 (by decide)
  rw [if_neg hperm] at h
  rw [if_neg (fun hcon => hcon.2 rfl)] at h
  rw [if_pos trivial] at h
  by_cases hacc : ((s.bids.find? (fun b => b.job_id == bid.job_id && b.status == "accepted")).isSome = true)
  · rw [if_pos hacc] at h
    injection h with hr hs
    rw [← hr] at hr200
    exact absurd hr200 (by decide)
  rw [if_neg hacc] at h
  rcases hfd : job.final_delivery_date with _ | fdd
  · rw [hfd] at h
    injection h with hr hs
    rw [← hr] at hr200
    exact absurd hr200 (by decide)
  rw [hfd] at h
  simp only at h
  injection h with hr hs
  subst hs
  refine ⟨fdd, rfl, _, rfl, rfl, rfl, rfl, rfl, rfl, rfl, ?_, ?_, ?_, ?_⟩
  · -- exactly one milestone on the new contract
    dsimp only
    rw [List.filter_cons_of_pos (by simp)]
    rw [List.filter_eq_nil_iff.mpr (fun m hm => by simpa using hfresh m hm)]
  · -- job awarded
    dsimp only
    rw [find?_map_pres _ _ (fun j => by by_cases hid : j.id == job.id <;> simp [hid]), hj,
      Option.map_some']
    rw [if_pos (by simp : (job.id == job.id) = true)]
    rfl
  · -- sibling bids rejected
    intro b hbmem hjob hne
    dsimp only at hbmem
    rw [List.map_map] at hbmem
    obtain ⟨b0, hb0, rfl⟩ := List.mem_map.mp hbmem
    by_cases h1 : b0.id = bid.id
    · exfalso
      apply hne
      simp [Function.comp, h1]
    · by_cases h2 : b0.job_id = bid.job_id
      · simp [Function.comp, h1, h2]
      · exfalso
        apply h2
        simpa [Function.comp, h1, h2] using hjob
  · -- target bid accepted
    dsimp only
    have hid1 : ∀ b : Bid,
        ((fun b => b.id == bidId)
          ((fun b => if b.id == bid.id then
              { b with
                status := "accepted",
                notes := if strTruthy notes then notes else b.notes } else b) b)) =
        ((fun b => b.id == bidId) b) := by
      intro b
      by_cases hbi : b.id == bid.id <;> simp [hbi]
    have hid2 : ∀ b : Bid,
        ((fun b => b.id == bidId)
          ((fun b => if b.job_id == bid.job_id && !(b.id == bid.id) then
              { b with status := "rejected" } else b) b)) =
        ((fun b => b.id == bidId) b) := by
      intro b
      by_cases hbi : b.job_id == bid.job_id && !(b.id == bid.id) <;> simp [hbi]
    rw [find?_map_pres _ _ hid1, find?_map_pres _ _ hid2, hb]
    simp only [Option.map_some']
    rw [if_neg (by simp : ¬ ((bid.job_id == bid.job_id && !(bid.id == bid.id)) = true))]
    rw [if_pos (by simp : (bid.id == bid.id) = true)]

/-- Open job by user 10, final delivery at 200, one deliverable label. -/
def c1Job : Job :=
  { id := 1, created_by := 10, job_type := some "freelance"
    assignment_mode := some "open", assigned_to := [], status := "open"
    bid_deadline := some 100, final_delivery_date := some 200
    deliverables := ["final_render"] }

/-- Target bid by user 30. -/
def c1Bid : Bid :=
  { id := 1, job_id := 1, bidder_id := 30, bidder_type := "artist"
    amount_total := 800, currency := "INR", start_available_from := some 60
    notes := none, status := "pending" }

/-- Sibling bid by user 31 on the same job. -/
def c1BidSibling : Bid :=
  { id := 2, job_id := 1, bidder_id := 31, bidder_type := "artist"
    amount_total := 900, currency := "INR", start_available_from := none
    notes := none, status := "pending" }

/-- State before the acceptance. -/
def c1St : St :=
  { initSt with
    jobs := [c1Job], bids := [c1Bid, c1BidSibling],
    nextBidId := 3, nextContractId := 7, nextMilestoneId := 9 }

/-- C1 witness: user 10 accepts bid 1; afterwards the job is awarded, bid 1 is
accepted, bid 2 rejected, and exactly one active contract and one pending
milestone with the bid total and the delivery date exist. -/
theorem c1_witness :
    (updateBidStatus c1St ⟨10, ["studio"]⟩ 1 "accepted" none 50).1.code = 200 ∧
    ((updateBidStatus c1St ⟨10, ["studio"]⟩ 1 "accepted" none 50).2.jobs.find?
        (fun j => j.id == 1)).map Job.status = some "awarded" ∧
    (updateBidStatus c1St ⟨10, ["studio"]⟩ 1 "accepted" none 50).2.bids.find?
        (fun b => b.id == 1) = some { c1Bid with status := "accepted" } ∧
    ((updateBidStatus c1St ⟨10, ["studio"]⟩ 1 "accepted" none 50).2.bids.map
        (fun b => (b.id, b.status))) = [(1, "accepted"), (2, "rejected")] ∧
    ((updateBidStatus c1St ⟨10, ["studio"]⟩ 1 "accepted" none 50).2.contracts.map
        (fun c => (c.id, c.status, c.client_id, c.vendor_id, c.total_amount))) =
      [(7, "active", 10, 30, 800)] ∧
    ((updateBidStatus c1St ⟨10, ["studio"]⟩ 1 "accepted" none 50).2.milestones.map
        (fun m => (m.contract_id, m.status, m.amount, m.due_date))) =
      [(7, "pending", 800, 200)] := by
  have h := c1_accept_bid_postconditions c1St ⟨10, ["studio"]⟩ 1 none 50 c1Bid c1Job
    (updateBidStatus c1St ⟨10, ["studio"]⟩ 1 "accepted" none 50).1
    (updateBidStatus c1St ⟨10, ["studio"]⟩ 1 "accepted" none 50).2
    (by rfl) (by rfl) (by intro m hm; simp [c1St, initSt] at hm) rfl (by rfl)
  obtain ⟨fdd, hfdd, contract, hcontr, hcid, hcstat, hcjob, hccli, hcven, hctot,
    hmil, hjob, hsib, htgt⟩ := h
  exact ⟨by rfl, hjob, htgt.trans (by decide), by decide, by decide, by decide⟩

/-! ## C3: at most one accepted bid per job -/

/-- Predicate picking the accepted bids of job `j`. -/
def acceptedOn (j : Nat) (b : Bid) : Bool := b.job_id == j && b.status == "accepted"

/-- Every job carries at most one accepted bid. -/
def AtMostOneAccepted (s : St) : Prop := ∀ j, s.bids.countP (acceptedOn j) ≤ 1

/-- Auxiliary invariant: bid ids are pairwise distinct and below the id
counter, and each job carries at most one accepted bid. -/
def BidInv (s : St) : Prop :=
  (s.bids.map Bid.id).Nodup ∧ (∀ b ∈ s.bids, b.id < s.nextBidId) ∧ AtMostOneAccepted s

/-- States sharing the bid data share the invariant. -/
theorem bidInv_congr {s t : St} (hb : t.bids = s.bids) (hn : t.nextBidId = s.nextBidId)
    (h : BidInv s) : BidInv t := by
  unfold BidInv AtMostOneAccepted at h ⊢
  rw [hb, hn]
  exact h

/-- The invariant passes to any filtering of the bid list. -/
theorem bidInv_filter (s : St) (q : Bid → Bool) (h : BidInv s) :
    BidInv { s with bids := s.bids.filter q } := by
  obtain ⟨hnodup, hlt, hone⟩ := h
  refine ⟨?_, ?_, ?_⟩
  · exact List.Nodup.sublist (List.Sublist.map Bid.id (List.filter_sublist _)) hnodup
  · intro b hb
    exact hlt b (List.mem_of_mem_filter hb)
  · intro j
    calc (s.bids.filter q).countP (acceptedOn j)
        = s.bids.countP (fun b => acceptedOn j b && q b) :=
          List.countP_filter (acceptedOn j) q s.bids
      _ ≤ s.bids.countP (acceptedOn j) :=
          List.countP_mono_left (fun b _ hpq => (Bool.and_eq_true_iff.mp hpq).1)
      _ ≤ 1 := hone j

/-- The invariant passes to an id-preserving rewrite of the bid list that
never creates an accepted bid. -/
theorem bidInv_map (s : St) (f : Bid → Bid)
    (hid : ∀ b, (f b).id = b.id)
    (hmono : ∀ j b, acceptedOn j (f b) = true → acceptedOn j b = true)
    (h : BidInv s) : BidInv { s with bids := s.bids.map f } := by
  obtain ⟨hnodup, hlt, hone⟩ := h
  refine ⟨?_, ?_, ?_⟩
  · rw [List.map_map]
    have hcomp : (Bid.id ∘ f) = Bid.id := funext hid
    rw [hcomp]
    exact hnodup
  · intro b hb
    obtain ⟨b0, hb0, rfl⟩ := List.mem_map.mp hb
    rw [hid]
    exact hlt b0 hb0
  · intro j
    rw [List.countP_map]
    exact le_trans (List.countP_mono_left (fun b _ hpb => hmono j b hpb)) (hone j)

/-- The invariant passes to a rewrite that keeps ids, job references and
statuses. -/
theorem bidInv_map_keep_status (s : St) (f : Bid → Bid)
    (hid : ∀ b, (f b).id = b.id) (hjb : ∀ b, (f b).job_id = b.job_id)
    (hst : ∀ b, (f b).status = b.status)
    (h : BidInv s) : BidInv { s with bids := s.bids.map f } :=
  bidInv_map s f hid (fun j b hpb => by
    unfold acceptedOn at hpb ⊢
    rwa [hjb, hst] at hpb) h

/-- The invariant passes to adding a fresh pending bid. -/
theorem bidInv_cons_pending (s : St) (bid : Bid)
    (hidn : bid.id = s.nextBidId) (hst : bid.status = "pending")
    (h : BidInv s) :
    BidInv { s with bids := bid :: s.bids, nextBidId := s.nextBidId + 1 } := by
  obtain ⟨hnodup, hlt, hone⟩ := h
  refine ⟨?_, ?_, ?_⟩
  · rw [List.map_cons, List.nodup_cons]
    refine ⟨?_, hnodup⟩
    rw [hidn]
    intro hmem
    obtain ⟨b0, hb0, hbeq⟩ := List.mem_map.mp hmem
    exact absurd hbeq (Nat.ne_of_lt (hlt b0 hb0))
  · intro b hb
    rcases List.mem_cons.mp hb with rfl | hmem
    · rw [hidn]
      exact Nat.lt_succ_self _
    · exact Nat.lt_succ_of_lt (hlt b hmem)
  · intro j
    rw [List.countP_cons]
    have hfalse : acceptedOn j bid = false := by
      simp [acceptedOn, hst]
    rw [hfalse]
    simpa using hone j

/-- Two id-preserving maps leave the id sequence untouched. -/
theorem ids_preserved_double (l : List Bid) (f g : Bid → Bid)
    (hf : ∀ b, (f b).id = b.id) (hg : ∀ b, (g b).id = b.id) :
    ((l.map f).map g).map Bid.id = l.map Bid.id := by
  rw [List.map_map, List.map_map]
  exact List.map_congr_left (fun b _ => by
    show (g (f b)).id = b.id
    rw [hg, hf])

/-- Elements of a double map keep their id bound. -/
theorem lt_of_mem_double_map (l : List Bid) (f g : Bid → Bid) (n : Nat)
    (hf : ∀ b, (f b).id = b.id) (hg : ∀ b, (g b).id = b.id)
    (hlt : ∀ b ∈ l, b.id < n) :
    ∀ b ∈ (l.map f).map g, b.id < n := by
  intro b hb
  rw [List.map_map] at hb
  obtain ⟨b0, hb0, rfl⟩ := List.mem_map.mp hb
  have hcomp : ((g ∘ f) b0).id = b0.id := by
    rw [Function.comp_apply, hg, hf]
  rw [hcomp]
  exact hlt b0 hb0

/-- Core of the single-acceptance argument: after rejecting all siblings and
accepting the target, every job still has at most one accepted bid. -/
theorem accept_bids_at_most_one (l : List Bid) (bid : Bid) (n : Option String)
    (hmem : bid ∈ l) (hnodup : (l.map Bid.id).Nodup)
    (hone : ∀ j, l.countP (acceptedOn j) ≤ 1) :
    ∀ j, ((l.map (fun b =>
        if b.job_id == bid.job_id && !(b.id == bid.id) then { b with status := "rejected" }
        else b)).map (fun b =>
          if b.id == bid.id then
            { b with
              status := "accepted",
              notes := if strTruthy n then n else b.notes }
          else b)).countP (acceptedOn j) ≤ 1 := by
  intro j
  rw [List.map_map, List.countP_map]
  by_cases hj : j = bid.job_id
  · subst hj
    refine le_trans (List.countP_mono_left ?_) (countP_proj_le_one Bid.id l hnodup bid.id)
    intro b hb hpb
    by_cases h1 : b.id = bid.id
    · simp [h1]
    · exfalso
      by_cases h2 : b.job_id = bid.job_id
      · simp [Function.comp, acceptedOn, h1, h2] at hpb
      · simp [Function.comp, acceptedOn, h1, h2] at hpb
  · refine le_trans (List.countP_mono_left ?_) (hone j)
    intro b hb hpb
    by_cases h1 : b.id = bid.id
    · have hbb : b = bid := List.inj_on_of_nodup_map hnodup hb hmem h1
      subst hbb
      exfalso
      simp [Function.comp, acceptedOn] at hpb
      exact hj hpb.symm
    · by_cases h2 : b.job_id = bid.job_id
      · exfalso
        simp [Function.comp, acceptedOn, h1, h2] at hpb
      · simpa [Function.comp, acceptedOn, h1, h2] using hpb

/-- The job routes never touch the bid collection. -/
theorem createJob_bids_preserved (s : St) (u : UserCtx) (jt am : Option String)
    (ato : List Nat) (bd fdd : Option Nat) (dl : List String) :
    (createJob s u jt am ato bd fdd dl).2.bids = s.bids ∧
    (createJob s u jt am ato bd fdd dl).2.nextBidId = s.nextBidId := by
  unfold createJob
  repeat' split
  all_goals exact ⟨rfl, rfl⟩

/-- Publishing never touches the bid collection. -/
theorem publishJob_bids_preserved (s : St) (u : UserCtx) (j : Nat) :
    (publishJob s u j).2.bids = s.bids ∧
    (publishJob s u j).2.nextBidId = s.nextBidId := by
  unfold publishJob
  repeat' split
  all_goals exact ⟨rfl, rfl⟩

/-- The dispatched job update never touches the bid collection. -/
theorem updateJobPut1_bids_preserved (s : St) (u : UserCtx) (j : Nat)
    (st : Option String) :
    (updateJobPut1 s u j st).2.bids = s.bids ∧
    (updateJobPut1 s u j st).2.nextBidId = s.nextBidId := by
  unfold updateJobPut1
  repeat' split
  all_goals exact ⟨rfl, rfl⟩

/-- Contract status writes never touch the bid collection. -/
theorem updateContractStatus_bids_preserved (s : St) (u : UserCtx) (c : Nat)
    (st : String) :
    (updateContractStatus s u c st).2.bids = s.bids ∧
    (updateContractStatus s u c st).2.nextBidId = s.nextBidId := by
  unfold updateContractStatus
  repeat' split
  all_goals exact ⟨rfl, rfl⟩

/-- Milestone updates never touch the bid collection. -/
theorem updateMilestone_bids_preserved (s : St) (u : UserCtx) (c m : Nat)
    (st rn : Option String) (now : Nat) :
    (updateMilestone s u c m st rn now).2.bids = s.bids ∧
    (updateMilestone s u c m st rn now).2.nextBidId = s.nextBidId := by
  unfold updateMilestone
  repeat' split
  all_goals exact ⟨rfl, rfl⟩

/-- Deliverable reviews never touch the bid collection. -/
theorem reviewDeliverable_bids_preserved (s : St) (u : UserCtx) (d : Nat)
    (st : String) (rn : Option String) (now : Nat) :
    (reviewDeliverable s u d st rn now).2.bids = s.bids ∧
    (reviewDeliverable s u d st rn now).2.nextBidId = s.nextBidId := by
  unfold reviewDeliverable
  repeat' split
  all_goals exact ⟨rfl, rfl⟩

/-- Bid submission preserves the invariant. -/
theorem bidInv_submitBid (s : St) (u : UserCtx) (j : Nat) (amt : Int)
    (cur : Option String) (saf : Option Nat) (n : Option String) (now : Nat)
    (h : BidInv s) : BidInv (submitBid s u j amt cur saf n now).2 := by
  unfold submitBid
  repeat' split
  any_goals exact h
  all_goals dsimp only
  all_goals exact bidInv_cons_pending s _ rfl rfl h

/-- Bid edits preserve the invariant (ids and statuses are untouched). -/
theorem bidInv_updateBid (s : St) (u : UserCtx) (bidId : Nat) (amt : Option Int)
    (cur : Option String) (saf : Option Nat) (n : Option String) (now : Nat)
    (h : BidInv s) : BidInv (updateBid s u bidId amt cur saf n now).2 := by
  unfold updateBid
  repeat' split
  any_goals exact h
  all_goals dsimp only
  all_goals
    refine bidInv_map_keep_status s _ ?_ ?_ ?_ h <;>
      (intro b; by_cases hb1 : (b.id == bidId) = true <;> simp [hb1])

/-- Bid withdrawal preserves the invariant. -/
theorem bidInv_withdrawBid (s : St) (u : UserCtx) (bidId : Nat) (now : Nat)
    (h : BidInv s) : BidInv (withdrawBid s u bidId now).2 := by
  unfold withdrawBid
  repeat' split
  any_goals exact h
  all_goals exact bidInv_filter s _ h

/-- Job deletion preserves the invariant (bids only shrink). -/
theorem bidInv_deleteJob (s : St) (u : UserCtx) (j : Nat)
    (h : BidInv s) : BidInv (deleteJob s u j).2 := by
  unfold deleteJob
  repeat' split
  any_goals exact h
  all_goals exact bidInv_filter s _ h

/-- Bid status writes preserve the invariant; acceptance is guarded by the
already-accepted lookup. -/
theorem bidInv_updateBidStatus (s : St) (u : UserCtx) (bidId : Nat) (st : String)
    (n : Option String) (now : Nat) (h : BidInv s) :
    BidInv (updateBidStatus s u bidId st n now).2 := by
  obtain ⟨hnodup, hlt, hone⟩ := h
  unfold updateBidStatus
  by_cases hval : bidStatusValues.contains st = true
  case neg =>
    rw [if_pos hval]
    exact ⟨hnodup, hlt, hone⟩
  rw [if_neg (fun hn => hn hval)]
  rcases hfb : s.bids.find? (fun b => b.id == bidId) with _ | bid
  · rw [hfb]
    exact ⟨hnodup, hlt, hone⟩
  rw [hfb]
  dsimp only
  rcases hfj : s.jobs.find? (fun jb => jb.id == bid.job_id) with _ | job
  · rw [hfj]
    exact ⟨hnodup, hlt, hone⟩
  rw [hfj]
  dsimp only
  by_cases hperm : (¬ u.roles.contains "admin" = true ∧ job.created_by ≠ u.id)
  · rw [if_pos hperm]
    exact ⟨hnodup, hlt, hone⟩
  rw [if_neg hperm]
  by_cases hguard : (bid.status = "accepted" ∧ st ≠ "accepted")
  · rw [if_pos hguard]
    exact ⟨hnodup, hlt, hone⟩
  rw [if_neg hguard]
  by_cases hst : st = "accepted"
  · rw [if_pos hst]
    by_cases hacc :
        ((s.bids.find? (fun b => b.job_id == bid.job_id && b.status == "accepted")).isSome = true)
    · rw [if_pos hacc]
      exact ⟨hnodup, hlt, hone⟩
    rw [if_neg hacc]
    rcases hfd : job.final_delivery_date with _ | fdd
    · exact ⟨hnodup, hlt, hone⟩
    dsimp only
    subst hst
    refine ⟨?_, ?_, ?_⟩
    · show (((s.bids.map _).map _).map Bid.id).Nodup
      rw [ids_preserved_double s.bids _ _
        (fun b => by by_cases hc : (b.job_id == bid.job_id && !(b.id == bid.id)) = true <;>
          simp [hc])
        (fun b => by by_cases hc : (b.id == bid.id) = true <;> simp [hc])]
      exact hnodup
    · exact lt_of_mem_double_map s.bids _ _ s.nextBidId
        (fun b => by by_cases hc : (b.job_id == bid.job_id && !(b.id == bid.id)) = true <;>
          simp [hc])
        (fun b => by by_cases hc : (b.id == bid.id) = true <;> simp [hc])
        hlt
    · exact accept_bids_at_most_one s.bids bid n
        (List.mem_of_find?_eq_some hfb) hnodup hone
  · rw [if_neg hst]
    refine bidInv_map s _ (fun b => ?_) (fun j b hpb => ?_) ⟨hnodup, hlt, hone⟩
    · by_cases hb1 : (b.id == bid.id) = true
      · rw [if_pos hb1]
      · rw [if_neg hb1]
    · by_cases hb1 : (b.id == bid.id) = true
      · rw [if_pos hb1] at hpb
        exfalso
        simp [acceptedOn] at hpb
        exact hst hpb.2
      · rwa [if_neg hb1] at hpb

/-- Every modelled request preserves the invariant. -/
theorem bidInv_applyOp (s : St) (op : Op) (h : BidInv s) : BidInv (applyOp s op) := by
  cases op with
  | createJob u jt am ato bd fdd dl =>
    exact bidInv_congr (createJob_bids_preserved s u jt am ato bd fdd dl).1
      (createJob_bids_preserved s u jt am ato bd fdd dl).2 h
  | publishJob u j =>
    exact bidInv_congr (publishJob_bids_preserved s u j).1
      (publishJob_bids_preserved s u j).2 h
  | updateJobPut1 u j st =>
    exact bidInv_congr (updateJobPut1_bids_preserved s u j st).1
      (updateJobPut1_bids_preserved s u j st).2 h
  | deleteJob u j => exact bidInv_deleteJob s u j h
  | submitBid u j amt cur saf n now => exact bidInv_submitBid s u j amt cur saf n now h
  | updateBidStatus u b st n now => exact bidInv_updateBidStatus s u b st n now h
  | updateBid u b amt cur saf n now => exact bidInv_updateBid s u b amt cur saf n now h
  | withdrawBid u b now => exact bidInv_withdrawBid s u b now h
  | updateContractStatus u c st =>
    exact bidInv_congr (updateContractStatus_bids_preserved s u c st).1
      (updateContractStatus_bids_preserved s u c st).2 h
  | updateMilestone u c m st rn now =>
    exact bidInv_congr (updateMilestone_bids_preserved s u c m st rn now).1
      (updateMilestone_bids_preserved s u c m st rn now).2 h
  | reviewDeliverable u d st rn now =>
    exact bidInv_congr (reviewDeliverable_bids_preserved s u d st rn now).1
      (reviewDeliverable_bids_preserved s u d st rn now).2 h

/-- The invariant holds along any request sequence. -/
theorem bidInv_runOps (ops : List Op) (s : St) (h : BidInv s) : BidInv (runOps s ops) := by
  induction ops generalizing s with
  | nil => exact h
  | cons op rest ih => exact ih (applyOp s op) (bidInv_applyOp s op h)

/-- The empty database satisfies the invariant. -/
theorem bidInv_init : BidInv initSt := by
  refine ⟨?_, ?_, ?_⟩
  · simp [initSt]
  · intro b hb
    simp [initSt] at hb
  · intro j
    simp [initSt, AtMostOneAccepted]

/-- C3: over any sequence of modelled requests starting from an empty
database, every job has at most one accepted bid; moreover any
`PUT /bids/:id/status` request aimed at an already accepted bid leaves the
state untouched and fails, with exactly HTTP 400 for an authorized request
carrying a valid status value. -/
theorem c3_at_most_one_accepted_bid :
    (∀ ops : List Op, AtMostOneAccepted (runOps initSt ops)) ∧
    (∀ s user bidId status notes now bid r s',
      s.bids.find? (fun b => b.id == bidId) = some bid →
      bid.status = "accepted" →
      updateBidStatus s user bidId status notes now = (r, s') →
      s' = s ∧ r.code ≠ 200 ∧ r.code ≠ 201) ∧
    (∀ s user bidId status notes now bid job r s',
      s.bids.find? (fun b => b.id == bidId) = some bid →
      bid.status = "accepted" →
      s.jobs.find? (fun jb => jb.id == bid.job_id) = some job →
      (user.roles.contains "admin" = true ∨ job.created_by = user.id) →
      bidStatusValues.contains status = true →
      updateBidStatus s user bidId status notes now = (r, s') →
      r.code = 400 ∧ s' = s) := by
  refine ⟨?_, ?_, ?_⟩
  · intro ops
    exact (bidInv_runOps ops initSt bidInv_init).2.2
  · intro s user bidId status notes now bid r s' hfb hA h
    simp only [updateBidStatus, hfb] at h
    by_cases hval : bidStatusValues.contains status = true
    case neg =>
      rw [if_pos hval] at h
      injection h with hr hs
      exact ⟨hs.symm, by rw [← hr]; decide, by rw [← hr]; decide⟩
    rw [if_neg (fun hn => hn hval)] at h
    rcases hfj : s.jobs.find? (fun jb => jb.id == bid.job_id) with _ | job
    · simp only [hfj] at h
      injection h with hr hs
      exact ⟨hs.symm, by rw [← hr]; decide, by rw [← hr]; decide⟩
    simp only [hfj] at h
    by_cases hperm : (¬ user.roles.contains "admin" = true ∧ job.created_by ≠ user.id)
    · rw [if_pos hperm] at h
      injection h with hr hs
      exact ⟨hs.symm, by rw [← hr]; decide, by rw [← hr]; decide⟩
    rw [if_neg hperm] at h
    by_cases hst : status = "accepted"
    · subst hst
      rw [if_neg (fun hcon => hcon.2 rfl)] at h
      rw [if_pos rfl] at h
      have hsome :
          ((s.bids.find? (fun b => b.job_id == bid.job_id && b.status == "accepted")).isSome
            = true) :=
        List.find?_isSome.mpr ⟨bid, List.mem_of_find?_eq_some hfb, by simp [hA]⟩
      rw [if_pos hsome] at h
      injection h with hr hs
      exact ⟨hs.symm, by rw [← hr]; decide, by rw [← hr]; decide⟩
    · rw [if_pos ⟨hA, hst⟩] at h
      injection h with hr hs
      exact ⟨hs.symm, by rw [← hr]; decide, by rw [← hr]; decide⟩
  · intro s user bidId status notes now bid job r s' hfb hA hfj hauth hval h
    simp only [updateBidStatus, hfb, hfj] at h
    rw [if_neg (fun hn => hn hval)] at h
    rw [if_neg (fun hcon =>
      hauth.elim (fun ha => hcon.1 ha) (fun ho => hcon.2 ho))] at h
    by_cases hst : status = "accepted"
    · subst hst
      rw [if_neg (fun hcon => hcon.2 rfl)] at h
      rw [if_pos rfl] at h
      have hsome :
          ((s.bids.find? (fun b => b.job_id == bid.job_id && b.status == "accepted")).isSome
            = true) :=
        List.find?_isSome.mpr ⟨bid, List.mem_of_find?_eq_some hfb, by simp [hA]⟩
      rw [if_pos hsome] at h
      injection h with hr hs
      exact ⟨by rw [← hr], hs.symm⟩
    · rw [if_pos ⟨hA, hst⟩] at h
      injection h with hr hs
      exact ⟨by rw [← hr], hs.symm⟩

/-- Demo request sequence: create a job, publish it, receive two bids, accept
the first. -/
def c3Ops : List Op :=
  [.createJob ⟨10, ["studio"]⟩ (some "freelance") (some "open") [] (some 100) (some 200) [],
   .publishJob ⟨10, ["studio"]⟩ 0,
   .submitBid ⟨30, ["artist"]⟩ 0 500 none none none 10,
   .submitBid ⟨31, ["artist"]⟩ 0 600 none none none 10,
   .updateBidStatus ⟨10, ["studio"]⟩ 0 "accepted" none 20]

/-- Awarded job with its accepted bid. -/
def c3Job : Job :=
  { id := 1, created_by := 10, job_type := some "freelance"
    assignment_mode := some "open", assigned_to := [], status := "awarded"
    bid_deadline := some 100, final_delivery_date := some 200, deliverables := [] }

/-- Accepted bid fixture. -/
def c3Bid : Bid :=
  { id := 1, job_id := 1, bidder_id := 30, bidder_type := "artist"
    amount_total := 500, currency := "INR", start_available_from := none
    notes := none, status := "accepted" }

/-- State with the accepted bid. -/
def c3St : St := { initSt with jobs := [c3Job], bids := [c3Bid] }

/-- C3 witness: the invariant instantiated on the demo run, and concrete
rejected mutations of an accepted bid. -/
theorem c3_witness :
    ((runOps initSt c3Ops).bids.countP (acceptedOn 0) ≤ 1) ∧
    ((updateBidStatus c3St ⟨10, ["studio"]⟩ 1 "rejected" none 0).2 = c3St ∧
      (updateBidStatus c3St ⟨10, ["studio"]⟩ 1 "rejected" none 0).1.code ≠ 200) ∧
    (updateBidStatus c3St ⟨10, ["studio"]⟩ 1 "rejected" none 0).1.code = 400 ∧
    (updateBidStatus c3St ⟨10, ["studio"]⟩ 1 "accepted" none 0).1.code = 400 := by
  refine ⟨c3_at_most_one_accepted_bid.1 c3Ops 0, ?_, ?_, ?_⟩
  · have h := c3_at_most_one_accepted_bid.2.1 c3St ⟨10, ["studio"]⟩ 1 "rejected" none 0 c3Bid
      (updateBidStatus c3St ⟨10, ["studio"]⟩ 1 "rejected" none 0).1
      (updateBidStatus c3St ⟨10, ["studio"]⟩ 1 "rejected" none 0).2
      (by rfl) rfl rfl
    exact ⟨h.1, h.2.1⟩
  · exact (c3_at_most_one_accepted_bid.2.2 c3St ⟨10, ["studio"]⟩ 1 "rejected" none 0 c3Bid c3Job
      (updateBidStatus c3St ⟨10, ["studio"]⟩ 1 "rejected" none 0).1
      (updateBidStatus c3St ⟨10, ["studio"]⟩ 1 "rejected" none 0).2
      (by rfl) rfl (by rfl) (Or.inr rfl) (by rfl) rfl).1
  · exact (c3_at_most_one_accepted_bid.2.2 c3St ⟨10, ["studio"]⟩ 1 "accepted" none 0 c3Bid c3Job
      (updateBidStatus c3St ⟨10, ["studio"]⟩ 1 "accepted" none 0).1
      (updateBidStatus c3St ⟨10, ["studio"]⟩ 1 "accepted" none 0).2
      (by rfl) rfl (by rfl) (Or.inr rfl) (by rfl) rfl).1

end Pikxora

